import Mathlib

/- The rational operations are `@[irreducible]` upstream, which blocks the
`decide`-based evaluation of the executable model on concrete inputs; proofs
only ever go through the kernel, which unfolds them anyway. -/
set_option allowUnsafeReducibility true in
attribute [semireducible] Rat.add Rat.sub Rat.mul Rat.div Rat.inv
  Rat.ofScientific Rat.normalize Rat.neg Rat.blt

/-!
A verification development for the GST reconciliation tool
(`reconciliation_v2.py` and the `app.py` boundary).

The Python program is shallowly embedded: worksheet cell values become the
`Cell` type, `Invoice` objects become the `Invoice` structure, the in-place
mutation performed by the three matching phases becomes explicit state passing
over `MState` (the pair of invoice lists plus the running match counter), and
Python floats are modelled as exact rationals (the algorithm only compares,
subtracts and takes absolute values, so the embedding over `ℚ` mirrors the
control flow of the source exactly).
-/

/-- A raw worksheet cell value as seen by the Python code: `None`, a string,
or a number.  (`reconciliation_v2.py`, values fed to `to_float` /
`Invoice.__init__`.) -/
inductive Cell where
  | none : Cell
  | str : String → Cell
  | num : ℚ → Cell
deriving DecidableEq, Repr

/-- Python `str.strip()` whitespace test, restricted to the whitespace
characters that can actually occur here (ASCII whitespace and the no-break
space). -/
def isSpaceChar (c : Char) : Bool :=
  c = ' ' ∨ c = '\t' ∨ c = '\n' ∨ c = '\r' ∨ c = '\x0b' ∨ c = '\x0c' ∨ c = ' '

/-- Python `s.strip()` on a list of characters. -/
def pyStripL (l : List Char) : List Char :=
  ((l.dropWhile isSpaceChar).reverse.dropWhile isSpaceChar).reverse

/-- Python `s.strip()`. -/
def pyStrip (s : String) : String := ⟨pyStripL s.data⟩

/-- The cleanup `s.replace(",", "").replace(" ", "").replace("₹", "")`
of `to_float` (line 46); all three replacements remove single characters. -/
def stripSeps (l : List Char) : List Char :=
  l.filter (fun c => ¬ (c = ',' ∨ c = ' ' ∨ c = '₹'))

/-- Lines 47-48 of `to_float`: `(123.45)` becomes `-123.45`. -/
def parenNeg (l : List Char) : List Char :=
  if l.head? = some '(' ∧ l.getLast? = some ')' then
    '-' :: (l.drop 1).dropLast
  else l

/-- Greedy match of `\d+(\.\d+)?` at the head of the character list, returning
the matched lexeme.  (Part of the regex search on line 50.) -/
def matchIntFrac (l : List Char) : Option (List Char) :=
  let ds := l.takeWhile Char.isDigit
  if ds = [] then Option.none
  else
    match l.drop ds.length with
    | '.' :: r2 =>
        let fs := r2.takeWhile Char.isDigit
        if fs = [] then some ds else some (ds ++ '.' :: fs)
    | _ => some ds

/-- Match of `-?\d+(\.\d+)?` anchored at the current position. -/
def matchNumAt (l : List Char) : Option (List Char) :=
  match l with
  | '-' :: rest => (matchIntFrac rest).map (fun m => '-' :: m)
  | _ => matchIntFrac l

/-- `re.search(r"-?\d+(\.\d+)?", s)`: the leftmost (then greedy) match. -/
def searchNum : List Char → Option (List Char)
  | [] => Option.none
  | c :: rest =>
    match matchNumAt (c :: rest) with
    | some m => some m
    | Option.none => searchNum rest

/-- Numeric value of a digit list. -/
def digitsToNat (l : List Char) : Nat :=
  l.foldl (fun a c => a * 10 + (c.toNat - '0'.toNat)) 0

/-- `float(...)` applied to a matched lexeme `-?\d+(\.\d+)?`.  The exact
decimal value is used (Python would round it to the nearest binary double;
nothing proved here depends on that rounding). -/
def parseLexeme (l : List Char) : ℚ :=
  let sl : ℚ × List Char := match l with
    | '-' :: r => (-1, r)
    | _ => (1, l)
  let ip := sl.2.takeWhile Char.isDigit
  let fp := match sl.2.drop ip.length with
    | '.' :: r => r
    | _ => []
  sl.1 * ((digitsToNat ip : ℚ) + (digitsToNat fp : ℚ) / (10 : ℚ) ^ fp.length)

/-- `to_float` (`reconciliation_v2.py` lines 40-56): total, silent numeric
coercion of an arbitrary cell value. -/
def to_float (val : Cell) : ℚ :=
  match val with
  | Cell.none => 0
  | Cell.num q => q
  | Cell.str v =>
    let s := pyStripL v.data
    if s = [] then 0
    else
      let s1 := parenNeg (stripSeps s)
      match searchNum s1 with
      | some m => parseLexeme m
      | Option.none => 0

/-- The raw field bag handed to `Invoice.__init__`: one entry per mapped
column (`gstin`, `party`, `igst`, `cgst`, `sgst`, `inv_no`, `date`); a column
that was not resolved contributes `Cell.none`. -/
structure RawRow where
  gstin : Cell := Cell.none
  party : Cell := Cell.none
  igst : Cell := Cell.none
  cgst : Cell := Cell.none
  sgst : Cell := Cell.none
  inv_no : Cell := Cell.none
  date : Cell := Cell.none
deriving DecidableEq, Repr

/-- `str(value or '')` for the gstin/party fields: a falsy value (`None`,
empty string, numeric zero) becomes the empty string, anything else its
string form.  The textual form of a numeric cell is approximated by `toString`
(its precise spelling is irrelevant to every property proved below). -/
def cellText (c : Cell) : String :=
  match c with
  | Cell.none => ""
  | Cell.str s => s
  | Cell.num q => if q = 0 then "" else toString q

/-- Python `.upper()` (ASCII, as in the gstin normalization). -/
def pyUpper (s : String) : String := ⟨s.data.map Char.toUpper⟩

/-- An `Invoice` object (`reconciliation_v2.py` lines 91-124).  The three
trailing fields are the mutable match state. -/
structure Invoice where
  row_idx : Nat
  gstin : String
  igst : ℚ
  cgst : ℚ
  sgst : ℚ
  party : String
  head : String
  amount : ℚ
  source : String
  match_id : Option Nat
  match_type : Option String
  matched_with_row : Option Nat
deriving DecidableEq, Repr

/-- `Invoice.__init__` (lines 94-121): gstin normalization, tax-head
classification at the 0.01 threshold and selection of the match amount. -/
def Invoice.make (row_idx : Nat) (data : RawRow) (source_sheet : String) : Invoice :=
  let g0 := pyUpper (pyStrip (cellText data.gstin))
  let g := if g0 = "NONE" ∨ g0 = "NAN" then "" else g0
  let igst := to_float data.igst
  let cgst := to_float data.cgst
  let sgst := to_float data.sgst
  let hd_amt : String × ℚ :=
    if 0.01 < |igst| then ("IGST", igst)
    else if 0.01 < |cgst| ∨ 0.01 < |sgst| then
      ("CGST/SGST", if 0.01 < |cgst| then cgst else sgst)
    else ("ZERO", 0)
  { row_idx := row_idx
    gstin := g
    igst := igst
    cgst := cgst
    sgst := sgst
    party := pyStrip (cellText data.party)
    head := hd_amt.1
    amount := hd_amt.2
    source := source_sheet
    match_id := Option.none
    match_type := Option.none
    matched_with_row := Option.none }

/-- The per-cell part of the empty-row test in `read_invoices` (lines
135-138): a cell counts as non-empty when it is not `None` and its string
form does not strip to the empty string. -/
def cellEmpty (c : Cell) : Bool :=
  match c with
  | Cell.none => true
  | Cell.str s => pyStrip s = ""
  | Cell.num _ => false

/-- The empty-row test over all seven mapped fields. -/
def rowEmpty (row : RawRow) : Bool :=
  cellEmpty row.gstin && cellEmpty row.party && cellEmpty row.igst &&
  cellEmpty row.cgst && cellEmpty row.sgst && cellEmpty row.inv_no &&
  cellEmpty row.date

/-- `read_invoices` (lines 126-148): `rows` holds the raw data of worksheet
rows `2 .. max_row` in order; non-empty rows are normalized and every record
not classified `ZERO` is kept. -/
def read_invoices (rows : List RawRow) (sheet_name : String) : List Invoice :=
  (rows.enumFrom 2).filterMap (fun p =>
    if rowEmpty p.2 then Option.none
    else
      let inv := Invoice.make p.1 p.2 sheet_name
      if inv.head ≠ "ZERO" then some inv else Option.none)

/-!  The matching engine (`match_invoices`, lines 150-349).  The in-place
mutation of invoice objects is modelled by explicit state passing: `MState`
carries both lists (positionally) and the running `match_counter`. -/

/-- The mutable state of `match_invoices`: the two invoice lists and the
match counter (which starts at 1). -/
structure MState where
  l1 : List Invoice
  l2 : List Invoice
  counter : Nat
deriving DecidableEq, Repr

/-- Setting the match fields of one invoice (one half of the "Link them"
block, e.g. lines 191-196). -/
def claimInv (inv : Invoice) (mid : Nat) (ty : String) (row : Nat) : Invoice :=
  { inv with match_id := some mid, match_type := some ty,
             matched_with_row := some row }

/-- The full "Link them" block: both sides receive the fresh counter value,
the shared tag and each other's row index, and the counter advances. -/
def linkAt (s : MState) (i j : Nat) (ty : String) : MState :=
  match s.l1[i]?, s.l2[j]? with
  | some x, some y =>
    { l1 := s.l1.set i (claimInv x s.counter ty y.row_idx)
      l2 := s.l2.set j (claimInv y s.counter ty x.row_idx)
      counter := s.counter + 1 }
  | _, _ => s

/-- One iteration of a phase's `for inv1 in list1` loop at index `i`:
skip already-claimed records, otherwise run the phase's candidate selection
`sel` and link on success (`ty` computes the descriptive tag). -/
def passStep (sel : MState → Nat → Option Nat) (ty : MState → Nat → Nat → String)
    (s : MState) (i : Nat) : MState :=
  match s.l1[i]? with
  | some x =>
    if x.match_id.isSome then s
    else
      match sel s i with
      | some j => linkAt s i j (ty s i j)
      | Option.none => s
  | Option.none => s

/-- A whole phase: the `for inv1 in list1` loop. -/
def runPass (sel : MState → Nat → Option Nat) (ty : MState → Nat → Nat → String)
    (s : MState) : MState :=
  (List.range s.l1.length).foldl (passStep sel ty) s

/-- The shared inner candidate loop of phases 1, 2A and 2B (e.g. lines
181-187): scan the candidate indices in order, skip claimed ones, and keep
the first strictly-smaller difference within tolerance.  The accumulator
`some (j, d)` plays the role of `best_match`/`best_diff` (`Option.none` is
`best_diff = inf`). -/
def bestFold (s : MState) (amt tol : ℚ) :
    List Nat → Option (Nat × ℚ) → Option (Nat × ℚ)
  | [], best => best
  | j :: rest, best =>
    match s.l2[j]? with
    | Option.none => bestFold s amt tol rest best
    | some c =>
      if c.match_id.isSome then bestFold s amt tol rest best
      else
        match best with
        | Option.none =>
          if |amt - c.amount| ≤ tol then
            bestFold s amt tol rest (some (j, |amt - c.amount|))
          else bestFold s amt tol rest best
        | some (k, dk) =>
          if |amt - c.amount| ≤ tol ∧ |amt - c.amount| < dk then
            bestFold s amt tol rest (some (j, |amt - c.amount|))
          else bestFold s amt tol rest (some (k, dk))

/-- Phase 1 candidate group: `map2[(gstin, head)]` built from the records of
`list2` unclaimed at phase start (lines 165-169), in list order. -/
def cands1 (s0 : MState) (x : Invoice) : List Nat :=
  (List.range s0.l2.length).filter (fun j =>
    match s0.l2[j]? with
    | some c => c.match_id.isNone && c.gstin == x.gstin && c.head == x.head
    | Option.none => false)

/-- Phase 2 sub-case A candidate group: `map2_no_gstin[head]` (lines
207-210). -/
def cands2A (s0 : MState) (h : String) : List Nat :=
  (List.range s0.l2.length).filter (fun j =>
    match s0.l2[j]? with
    | some c => c.match_id.isNone && c.gstin == "" && c.head == h
    | Option.none => false)

/-- Phase 2 sub-case B candidate group: `map2_with_gstin[head]` (lines
238-241). -/
def cands2B (s0 : MState) (h : String) : List Nat :=
  (List.range s0.l2.length).filter (fun j =>
    match s0.l2[j]? with
    | some c => c.match_id.isNone && !(c.gstin == "") && c.head == h
    | Option.none => false)

/-- Phase 1 candidate selection for the record at index `i` (`s0` is the
phase-start snapshot state from which `map2` was built, `cur` the current
state, whose claim marks the inner loop re-checks). -/
def sel1 (tol : ℚ) (s0 cur : MState) (i : Nat) : Option Nat :=
  match cur.l1[i]? with
  | some x => (bestFold cur x.amount tol (cands1 s0 x) Option.none).map Prod.fst
  | Option.none => Option.none

/-- Phase 2 sub-case A selection: requires the list-1 record to carry a
GSTIN (line 214). -/
def sel2A (tol : ℚ) (s0 cur : MState) (i : Nat) : Option Nat :=
  match cur.l1[i]? with
  | some x =>
    if x.gstin = "" then Option.none
    else (bestFold cur x.amount tol (cands2A s0 x.head) Option.none).map Prod.fst
  | Option.none => Option.none

/-- Phase 2 sub-case B selection: requires the list-1 record to lack a
GSTIN (line 245). -/
def sel2B (tol : ℚ) (s0 cur : MState) (i : Nat) : Option Nat :=
  match cur.l1[i]? with
  | some x =>
    if x.gstin = "" then
      (bestFold cur x.amount tol (cands2B s0 x.head) Option.none).map Prod.fst
    else Option.none
  | Option.none => Option.none

/-- Amount of the list-2 record at index `j` (0 out of range; never used out
of range). -/
def amountAt (s : MState) (j : Nat) : ℚ :=
  match s.l2[j]? with
  | some c => c.amount
  | Option.none => 0

/-- Phase 3 candidate group for one head: the records of `list2` unclaimed at
phase start, sorted stably by amount (lines 277-291; Python's stable `sort`
with an amount key and the stable insertion sort agree). -/
def cands3 (s0 : MState) (h : String) : List Nat :=
  List.insertionSort (fun a b => amountAt s0 a ≤ amountAt s0 b)
    ((List.range s0.l2.length).filter (fun j =>
      match s0.l2[j]? with
      | some c => c.match_id.isNone && c.head == h
      | Option.none => false))

/-- `bisect.bisect_left` on a sorted list: the number of leading elements
strictly below `x`, i.e. the insertion point. -/
def bisect_left (l : List ℚ) (x : ℚ) : Nat :=
  (l.takeWhile (fun a => a < x)).length

/-- The phase 3 outward scan (both directions share this code, lines 307-330):
stop at the first candidate whose distance exceeds the tolerance, skip claimed
candidates, keep strictly smaller differences. -/
def scanBest (s : MState) (amt tol : ℚ) :
    List Nat → Option (Nat × ℚ) → Option (Nat × ℚ)
  | [], best => best
  | j :: rest, best =>
    match s.l2[j]? with
    | Option.none => scanBest s amt tol rest best
    | some c =>
      if tol < |c.amount - amt| then best
      else if c.match_id.isSome then scanBest s amt tol rest best
      else
        match best with
        | Option.none => scanBest s amt tol rest (some (j, |c.amount - amt|))
        | some (k, dk) =>
          if |c.amount - amt| < dk then
            scanBest s amt tol rest (some (j, |c.amount - amt|))
          else scanBest s amt tol rest (some (k, dk))

/-- Phase 3 selection (lines 293-330): binary search for the insertion point
of the record's amount in the pre-sorted candidate amounts, then scan right
(from `idx`) and left (from `idx - 1` downwards). -/
def sel3 (tol : ℚ) (s0 cur : MState) (i : Nat) : Option Nat :=
  match cur.l1[i]? with
  | some x =>
    let cands := cands3 s0 x.head
    let idx := bisect_left (cands.map (amountAt s0)) x.amount
    let bestR := scanBest cur x.amount tol (cands.drop idx) Option.none
    let best := scanBest cur x.amount tol ((cands.take idx).reverse) bestR
    best.map Prod.fst
  | Option.none => Option.none

/-- The phase 3 tag rule (lines 336-341). -/
def ty3 (cur : MState) (i j : Nat) : String :=
  match cur.l1[i]?, cur.l2[j]? with
  | some x, some y =>
    if x.gstin ≠ "" ∧ y.gstin ≠ "" ∧ x.gstin ≠ y.gstin then
      "Probable Match (GSTIN Mismatch)"
    else "Match (No GSTINs)"
  | _, _ => ""

/-- Phase 1: perfect matches (same GSTIN, same head, nearest amount within
tolerance). -/
def phase1 (tol : ℚ) (s : MState) : MState :=
  runPass (sel1 tol s) (fun _ _ _ => "Perfect Match") s

/-- Phase 2 sub-case A: list 1 has a GSTIN, list 2 candidate lacks one. -/
def phase2A (tol : ℚ) (name2 : String) (s : MState) : MState :=
  runPass (sel2A tol s) (fun _ _ _ => "Match (Missing GSTIN in " ++ name2 ++ ")") s

/-- Phase 2 sub-case B: list 1 lacks a GSTIN, list 2 candidate has one. -/
def phase2B (tol : ℚ) (name1 : String) (s : MState) : MState :=
  runPass (sel2B tol s) (fun _ _ _ => "Match (Missing GSTIN in " ++ name1 ++ ")") s

/-- Phase 3: amount-only matches with the bisect-based outward scan. -/
def phase3 (tol : ℚ) (s : MState) : MState :=
  runPass (sel3 tol s) ty3 s

/-- The initial state of `match_invoices`: the two lists as read, counter 1
(line 154). -/
def initState (list1 list2 : List Invoice) : MState := ⟨list1, list2, 1⟩

/-- `match_invoices` (lines 150-349): the three phases in order (phase 2 is
its two sub-passes).  The returned state holds both annotated lists and the
final counter (the Python function returns the counter and mutates the lists
in place). -/
def match_invoices (list1 list2 : List Invoice) (tol : ℚ)
    (name1 name2 : String) : MState :=
  phase3 tol (phase2B tol name1 (phase2A tol name2 (phase1 tol
    (initState list1 list2))))

/-!  Result annotation (`write_results`, lines 351-374) and the
configuration boundary (`process_reconciliation`, lines 509-582, plus the
`upload_file` handler of `app.py`). -/

/-- One annotated output row: the three cells written next to worksheet row
`row` (`Match_Status`, `Match_ID`, `Matched_Row_Idx`). -/
structure RowStatus where
  row : Nat
  status : String
  mid : Option Nat
  mrow : Option Nat
deriving DecidableEq, Repr

/-- The status text of a record's row (line 367): the match tag when truthy,
otherwise "Missing in <other sheet>". -/
def statusOf (inv : Invoice) (other_name : String) : String :=
  match inv.match_type with
  | some t => if t = "" then "Missing in " ++ other_name else t
  | Option.none => "Missing in " ++ other_name

/-- The `inv_map` row lookup (line 361): a dict built left to right, so a
later invoice with the same row index would win. -/
def invAtRow (invoices : List Invoice) (r : Nat) : Option Invoice :=
  invoices.reverse.find? (fun inv => inv.row_idx == r)

/-- `write_results` (lines 351-374): one annotation per worksheet row
`2 .. max_row`, in order. -/
def write_results (max_row : Nat) (invoices : List Invoice)
    (other_name : String) : List RowStatus :=
  (List.range' 2 (max_row - 1)).map (fun r =>
    match invAtRow invoices r with
    | some inv =>
      { row := r, status := statusOf inv other_name, mid := inv.match_id,
        mrow := inv.matched_with_row }
    | Option.none =>
      { row := r, status := "Ignored/Zero", mid := Option.none,
        mrow := Option.none })

/-- `classify_sheet` (lines 18-26). -/
def classify_sheet (name : String) : String :=
  let n := name.data.map Char.toLower
  if "book".data <:+: n ∨ "purchase".data <:+: n ∨ "ledger".data <:+: n ∨
     "pr".data <:+: n ∨ "register".data <:+: n then "BOOKS"
  else if "2b".data <:+: n then "2B"
  else if "3b".data <:+: n then "3B"
  else "UNKNOWN"

/-- The resolved column map of a worksheet (`get_header_map`, lines 58-89);
header-keyword resolution itself happens in the external workbook, so the map
is taken as input here.  A missing column is `Option.none` (worksheet columns
are numbered from 1, so truthiness and presence agree). -/
structure HeaderMap where
  gstin : Option Nat := Option.none
  party : Option Nat := Option.none
  igst : Option Nat := Option.none
  cgst : Option Nat := Option.none
  sgst : Option Nat := Option.none
  inv_no : Option Nat := Option.none
  date : Option Nat := Option.none
deriving DecidableEq, Repr

/-- Python truthiness of an optional sheet name (`not name`). -/
def optFalsy (o : Option String) : Bool :=
  match o with
  | Option.none => true
  | some s => s = ""

/-- Python `repr` of a list of sheet names, as interpolated into the error
messages (quote escaping inside names is not reproduced; no property below
depends on it). -/
def pyListRepr (l : List String) : String :=
  "[" ++ String.intercalate ", " (l.map (fun s => "'" ++ s ++ "'")) ++ "]"

/-- The sheet auto-detection of `process_reconciliation` (lines 518-535):
books vs 2B, then books vs 3B, then 3B vs 2B, then the two-sheet fallback. -/
def autoDetect (sheets : List String) : Option String × Option String :=
  let books := sheets.filter (fun s => classify_sheet s = "BOOKS")
  let g2b := sheets.filter (fun s => classify_sheet s = "2B")
  let g3b := sheets.filter (fun s => classify_sheet s = "3B")
  if books ≠ [] ∧ g2b ≠ [] then (books.head?, g2b.head?)
  else if books ≠ [] ∧ g3b ≠ [] then (books.head?, g3b.head?)
  else if g3b ≠ [] ∧ g2b ≠ [] then (g3b.head?, g2b.head?)
  else if sheets.length = 2 then (sheets.head?, sheets[1]?)
  else (Option.none, Option.none)

/-- Name resolution: auto-detect only when neither name was provided (line
518). -/
def resolveNames (sheets : List String) (sheet1 sheet2 : Option String) :
    Option String × Option String :=
  if optFalsy sheet1 && optFalsy sheet2 then autoDetect sheets
  else (sheet1, sheet2)

/-- `validate_map` (lines 557-566): the identifier column is required and at
least one of the three tax columns must be present. -/
def validate_map (m : HeaderMap) (sheet_name : String) : Except String Unit :=
  if m.gstin.isNone then
    Except.error ("Sheet '" ++ sheet_name ++ "' is missing required columns: gstin")
  else if m.igst.isNone ∧ m.cgst.isNone ∧ m.sgst.isNone then
    Except.error ("Sheet '" ++ sheet_name ++
      "' has no tax columns (IGST, CGST, or SGST found).")
  else Except.ok ()

/-- `process_reconciliation` (lines 509-582).  The workbook is abstracted by
its sheet-name list and two oracles giving, per sheet, the resolved header
map and the raw data rows (rows `2 .. max_row`); saving the workbook is
represented by returning the two annotated row lists. -/
def process_reconciliation (sheets : List String)
    (wsMap : String → HeaderMap) (wsRows : String → List RawRow)
    (sheet1 sheet2 : Option String) (tolerance : ℚ) :
    Except String (List RowStatus × List RowStatus) :=
  let names := resolveNames sheets sheet1 sheet2
  if optFalsy names.1 || optFalsy names.2 then
    Except.error ("Could not auto-detect sheets. and none provided. Available: " ++
      pyListRepr sheets)
  else
    let n1 := names.1.getD ""
    let n2 := names.2.getD ""
    if n1 = n2 then Except.error "Sheet 1 and Sheet 2 must be different."
    else if ¬ (n1 ∈ sheets ∧ n2 ∈ sheets) then
      Except.error ("One of the sheets not found. Available: " ++ pyListRepr sheets)
    else
      match validate_map (wsMap n1) n1 with
      | Except.error e => Except.error e
      | Except.ok _ =>
        match validate_map (wsMap n2) n2 with
        | Except.error e => Except.error e
        | Except.ok _ =>
          let inv1 := read_invoices (wsRows n1) n1
          let inv2 := read_invoices (wsRows n2) n2
          let final := match_invoices inv1 inv2 tolerance n1 n2
          Except.ok
            (write_results ((wsRows n1).length + 1) final.l1 n2,
             write_results ((wsRows n2).length + 1) final.l2 n1)

/-- The configuration-error predicate: exactly the conditions under which
`process_reconciliation` raises before matching (unresolvable or identical
sheet names, a sheet not in the workbook, a missing identifier column, or no
tax column at all). -/
def ConfigInvalid (sheets : List String) (sheet1 sheet2 : Option String)
    (wsMap : String → HeaderMap) : Prop :=
  let names := resolveNames sheets sheet1 sheet2
  optFalsy names.1 = true ∨ optFalsy names.2 = true ∨
  names.1.getD "" = names.2.getD "" ∨
  names.1.getD "" ∉ sheets ∨ names.2.getD "" ∉ sheets ∨
  (wsMap (names.1.getD "")).gstin = Option.none ∨
  (wsMap (names.2.getD "")).gstin = Option.none ∨
  ((wsMap (names.1.getD "")).igst = Option.none ∧
   (wsMap (names.1.getD "")).cgst = Option.none ∧
   (wsMap (names.1.getD "")).sgst = Option.none) ∨
  ((wsMap (names.2.getD "")).igst = Option.none ∧
   (wsMap (names.2.getD "")).cgst = Option.none ∧
   (wsMap (names.2.getD "")).sgst = Option.none)

/-- The outcome of the `upload_file` handler in `app.py` (lines 66-93): on
success an HTTP 200 payload, on an exception from `process_reconciliation` a
500 payload whose error field is `str(e)` - the message verbatim. -/
def upload_outcome (r : Except String (List RowStatus × List RowStatus)) :
    String × Nat :=
  match r with
  | Except.ok _ => ("Reconciliation successful!", 200)
  | Except.error e => (e, 500)

/-!  ## Basic state lemmas

`Invoice.core` collects the immutable fields of a record; the matching
phases only ever touch the three match fields of unclaimed records. -/

/-- The immutable part of an invoice. -/
def Invoice.core (v : Invoice) : Nat × String × ℚ × ℚ × ℚ × String × String × ℚ × String :=
  (v.row_idx, v.gstin, v.igst, v.cgst, v.sgst, v.party, v.head, v.amount, v.source)

theorem claimInv_core (inv : Invoice) (mid : Nat) (ty : String) (row : Nat) :
    (claimInv inv mid ty row).core = inv.core := rfl

theorem linkAt_eq (s : MState) (i j : Nat) (ty : String) (x y : Invoice)
    (hx : s.l1[i]? = some x) (hy : s.l2[j]? = some y) :
    linkAt s i j ty =
      { l1 := s.l1.set i (claimInv x s.counter ty y.row_idx)
        l2 := s.l2.set j (claimInv y s.counter ty x.row_idx)
        counter := s.counter + 1 } := by
  simp [linkAt, hx, hy]

theorem linkAt_l1_get (s : MState) (i j : Nat) (ty : String) (x y : Invoice)
    (hx : s.l1[i]? = some x) (hy : s.l2[j]? = some y) (k : Nat) :
    (linkAt s i j ty).l1[k]? =
      if i = k then some (claimInv x s.counter ty y.row_idx) else s.l1[k]? := by
  have hi : i < s.l1.length := (List.getElem?_eq_some.mp hx).1
  rw [linkAt_eq s i j ty x y hx hy]
  simp [List.getElem?_set, hi]

theorem linkAt_l2_get (s : MState) (i j : Nat) (ty : String) (x y : Invoice)
    (hx : s.l1[i]? = some x) (hy : s.l2[j]? = some y) (k : Nat) :
    (linkAt s i j ty).l2[k]? =
      if j = k then some (claimInv y s.counter ty x.row_idx) else s.l2[k]? := by
  have hj : j < s.l2.length := (List.getElem?_eq_some.mp hy).1
  rw [linkAt_eq s i j ty x y hx hy]
  simp [List.getElem?_set, hj]

theorem linkAt_counter (s : MState) (i j : Nat) (ty : String) (x y : Invoice)
    (hx : s.l1[i]? = some x) (hy : s.l2[j]? = some y) :
    (linkAt s i j ty).counter = s.counter + 1 := by
  rw [linkAt_eq s i j ty x y hx hy]

/-- `b` is reachable from `a` by linking steps: the counter never decreases,
immutable fields never change, a record still unclaimed in `b` sits unchanged
in `a`, and a record already claimed in `a` sits unchanged in `b`. -/
structure Steps (a b : MState) : Prop where
  counter_le : a.counter ≤ b.counter
  core1 : ∀ i : Nat, (b.l1[i]?).map Invoice.core = (a.l1[i]?).map Invoice.core
  core2 : ∀ j : Nat, (b.l2[j]?).map Invoice.core = (a.l2[j]?).map Invoice.core
  back1 : ∀ (i : Nat) (x : Invoice),
    b.l1[i]? = some x → x.match_id = Option.none → a.l1[i]? = some x
  back2 : ∀ (j : Nat) (y : Invoice),
    b.l2[j]? = some y → y.match_id = Option.none → a.l2[j]? = some y
  fwd1 : ∀ (i : Nat) (x : Invoice),
    a.l1[i]? = some x → x.match_id.isSome → b.l1[i]? = some x
  fwd2 : ∀ (j : Nat) (y : Invoice),
    a.l2[j]? = some y → y.match_id.isSome → b.l2[j]? = some y

theorem Steps.refl {s : MState} : Steps s s :=
  ⟨Nat.le_refl _, fun _ => rfl, fun _ => rfl,
   fun _ _ h _ => h, fun _ _ h _ => h, fun _ _ h _ => h, fun _ _ h _ => h⟩

theorem Steps.trans {a b c : MState} (h1 : Steps a b) (h2 : Steps b c) : Steps a c := by
  refine ⟨Nat.le_trans h1.counter_le h2.counter_le, ?_, ?_, ?_, ?_, ?_, ?_⟩
  · exact fun i => (h2.core1 i).trans (h1.core1 i)
  · exact fun j => (h2.core2 j).trans (h1.core2 j)
  · exact fun i x h hx => h1.back1 i x (h2.back1 i x h hx) hx
  · exact fun j y h hy => h1.back2 j y (h2.back2 j y h hy) hy
  · exact fun i x h hx => h2.fwd1 i x (h1.fwd1 i x h hx) hx
  · exact fun j y h hy => h2.fwd2 j y (h1.fwd2 j y h hy) hy

theorem linkAt_steps (s : MState) (i j : Nat) (ty : String) (x y : Invoice)
    (hx : s.l1[i]? = some x) (hy : s.l2[j]? = some y)
    (hxu : x.match_id = Option.none) (hyu : y.match_id = Option.none) :
    Steps s (linkAt s i j ty) := by
  refine ⟨?_, ?_, ?_, ?_, ?_, ?_, ?_⟩
  · rw [linkAt_counter s i j ty x y hx hy]; omega
  · intro k
    rw [linkAt_l1_get s i j ty x y hx hy k]
    by_cases h : i = k
    · subst h; simp [hx, claimInv_core]
    · simp [h]
  · intro k
    rw [linkAt_l2_get s i j ty x y hx hy k]
    by_cases h : j = k
    · subst h; simp [hy, claimInv_core]
    · simp [h]
  · intro k z hz hzu
    rw [linkAt_l1_get s i j ty x y hx hy k] at hz
    by_cases h : i = k
    · simp [h] at hz
      rw [← hz] at hzu
      simp [claimInv] at hzu
    · simpa [h] using hz
  · intro k z hz hzu
    rw [linkAt_l2_get s i j ty x y hx hy k] at hz
    by_cases h : j = k
    · simp [h] at hz
      rw [← hz] at hzu
      simp [claimInv] at hzu
    · simpa [h] using hz
  · intro k z hz hzc
    rw [linkAt_l1_get s i j ty x y hx hy k]
    by_cases h : i = k
    · subst h
      rw [hx] at hz
      cases hz
      rw [hxu] at hzc
      cases hzc
    · simpa [h] using hz
  · intro k z hz hzc
    rw [linkAt_l2_get s i j ty x y hx hy k]
    by_cases h : j = k
    · subst h
      rw [hy] at hz
      cases hz
      rw [hyu] at hzc
      cases hzc
    · simpa [h] using hz

/-- Soundness of a phase's candidate selection: a returned index denotes an
existing, still-unclaimed list-2 record whose amount is within tolerance. -/
def SoundSel (sel : MState → Nat → Option Nat) (tol : ℚ) : Prop :=
  ∀ (cur : MState) (i j : Nat) (x : Invoice), cur.l1[i]? = some x → sel cur i = some j →
    ∃ y, cur.l2[j]? = some y ∧ y.match_id = Option.none ∧
      |x.amount - y.amount| ≤ tol

theorem passStep_steps (sel : MState → Nat → Option Nat)
    (ty : MState → Nat → Nat → String) (tol : ℚ) (hsel : SoundSel sel tol)
    (s : MState) (i : Nat) : Steps s (passStep sel ty s i) := by
  unfold passStep
  cases h1 : s.l1[i]? with
  | none => exact Steps.refl
  | some x =>
    by_cases h2 : x.match_id.isSome
    · simp [h2]; exact Steps.refl
    · simp [h2]
      cases h3 : sel s i with
      | none => exact Steps.refl
      | some j =>
        obtain ⟨y, hy, hyu, _⟩ := hsel s i j x h1 h3
        exact linkAt_steps s i j _ x y h1 hy
          (Option.not_isSome_iff_eq_none.mp h2) hyu

theorem foldl_passStep_steps (sel : MState → Nat → Option Nat)
    (ty : MState → Nat → Nat → String) (tol : ℚ) (hsel : SoundSel sel tol) :
    ∀ (L : List Nat) (s : MState), Steps s (L.foldl (passStep sel ty) s)
  | [], _ => Steps.refl
  | i :: L, s =>
    (passStep_steps sel ty tol hsel s i).trans
      (foldl_passStep_steps sel ty tol hsel L _)

theorem runPass_steps (sel : MState → Nat → Option Nat)
    (ty : MState → Nat → Nat → String) (tol : ℚ) (hsel : SoundSel sel tol)
    (s : MState) : Steps s (runPass sel ty s) :=
  foldl_passStep_steps sel ty tol hsel _ s

/-!  ## Soundness of the candidate scans -/

/-- Soundness of the `best_match`/`best_diff` accumulator: it always denotes
an unclaimed list-2 record whose difference is within tolerance. -/
def AccOk (s : MState) (amt tol : ℚ) (acc : Option (Nat × ℚ)) : Prop :=
  ∀ (k : Nat) (d : ℚ), acc = some (k, d) →
    ∃ c, s.l2[k]? = some c ∧ c.match_id = Option.none ∧
      d = |amt - c.amount| ∧ d ≤ tol

theorem accOk_nil (s : MState) (amt tol : ℚ) : AccOk s amt tol Option.none := by
  intro k d h
  cases h

theorem bestFold_accOk (s : MState) (amt tol : ℚ) :
    ∀ (l : List Nat) (acc : Option (Nat × ℚ)), AccOk s amt tol acc →
      AccOk s amt tol (bestFold s amt tol l acc) := by
  intro l
  induction l with
  | nil => intro acc h; simpa [bestFold] using h
  | cons j rest ih =>
    intro acc h
    rw [bestFold]
    cases hj : s.l2[j]? with
    | none => simp only; exact ih acc h
    | some c =>
      simp only
      by_cases hc : c.match_id.isSome
      · rw [if_pos hc]; exact ih acc h
      · rw [if_neg hc]
        have hcu : c.match_id = Option.none := Option.not_isSome_iff_eq_none.mp hc
        cases hacc : acc with
        | none =>
          simp only
          by_cases hd : |amt - c.amount| ≤ tol
          · rw [if_pos hd]
            refine ih _ ?_
            intro k d hkd
            rw [Option.some_inj] at hkd
            cases hkd
            exact ⟨c, hj, hcu, rfl, hd⟩
          · rw [if_neg hd]
            exact ih _ (accOk_nil s amt tol)
        | some kd =>
          obtain ⟨k, dk⟩ := kd
          simp only
          by_cases hd : |amt - c.amount| ≤ tol ∧ |amt - c.amount| < dk
          · rw [if_pos hd]
            refine ih _ ?_
            intro k1 d1 hkd
            rw [Option.some_inj] at hkd
            cases hkd
            exact ⟨c, hj, hcu, rfl, hd.1⟩
          · rw [if_neg hd]
            refine ih _ ?_
            intro k1 d1 hkd
            rw [Option.some_inj] at hkd
            cases hkd
            exact h _ _ hacc

/-- Same soundness for the phase 3 outward scan (whose difference is written
`|c.amount - amt|`). -/
def AccOk3 (s : MState) (amt tol : ℚ) (acc : Option (Nat × ℚ)) : Prop :=
  ∀ (k : Nat) (d : ℚ), acc = some (k, d) →
    ∃ c, s.l2[k]? = some c ∧ c.match_id = Option.none ∧
      d = |c.amount - amt| ∧ d ≤ tol

theorem accOk3_nil (s : MState) (amt tol : ℚ) : AccOk3 s amt tol Option.none := by
  intro k d h
  cases h

theorem scanBest_accOk3 (s : MState) (amt tol : ℚ) :
    ∀ (l : List Nat) (acc : Option (Nat × ℚ)), AccOk3 s amt tol acc →
      AccOk3 s amt tol (scanBest s amt tol l acc) := by
  intro l
  induction l with
  | nil => intro acc h; simpa [scanBest] using h
  | cons j rest ih =>
    intro acc h
    rw [scanBest]
    cases hj : s.l2[j]? with
    | none => simp only; exact ih acc h
    | some c =>
      simp only
      by_cases hbrk : tol < |c.amount - amt|
      · rw [if_pos hbrk]; exact h
      · rw [if_neg hbrk]
        by_cases hc : c.match_id.isSome
        · rw [if_pos hc]; exact ih acc h
        · rw [if_neg hc]
          have hcu : c.match_id = Option.none := Option.not_isSome_iff_eq_none.mp hc
          have hdt : |c.amount - amt| ≤ tol := le_of_not_lt hbrk
          cases hacc : acc with
          | none =>
            simp only
            refine ih _ ?_
            intro k d hkd
            rw [Option.some_inj] at hkd
            cases hkd
            exact ⟨c, hj, hcu, rfl, hdt⟩
          | some kd =>
            obtain ⟨k, dk⟩ := kd
            simp only
            by_cases hd : |c.amount - amt| < dk
            · rw [if_pos hd]
              refine ih _ ?_
              intro k1 d1 hkd
              rw [Option.some_inj] at hkd
              cases hkd
              exact ⟨c, hj, hcu, rfl, hdt⟩
            · rw [if_neg hd]
              refine ih _ ?_
              intro k1 d1 hkd
              rw [Option.some_inj] at hkd
              cases hkd
              exact h _ _ hacc

theorem sel1_sound (tol : ℚ) (s0 : MState) : SoundSel (sel1 tol s0) tol := by
  intro cur i j x hx hsel
  unfold sel1 at hsel
  rw [hx] at hsel
  simp only at hsel
  cases hbf : bestFold cur x.amount tol (cands1 s0 x) Option.none with
  | none => rw [hbf] at hsel; cases hsel
  | some kd =>
    obtain ⟨k, d⟩ := kd
    rw [hbf] at hsel
    simp only [Option.map_some', Option.some_inj] at hsel
    obtain ⟨c, hc, hcu, hd, hdt⟩ :=
      bestFold_accOk cur x.amount tol _ _ (accOk_nil cur x.amount tol) k d hbf
    subst hsel
    exact ⟨c, hc, hcu, by rwa [hd] at hdt⟩

theorem sel2A_sound (tol : ℚ) (s0 : MState) : SoundSel (sel2A tol s0) tol := by
  intro cur i j x hx hsel
  unfold sel2A at hsel
  rw [hx] at hsel
  simp only at hsel
  by_cases hg : x.gstin = ""
  · rw [if_pos hg] at hsel; cases hsel
  · rw [if_neg hg] at hsel
    cases hbf : bestFold cur x.amount tol (cands2A s0 x.head) Option.none with
    | none => rw [hbf] at hsel; cases hsel
    | some kd =>
      obtain ⟨k, d⟩ := kd
      rw [hbf] at hsel
      simp only [Option.map_some', Option.some_inj] at hsel
      obtain ⟨c, hc, hcu, hd, hdt⟩ :=
        bestFold_accOk cur x.amount tol _ _ (accOk_nil cur x.amount tol) k d hbf
      subst hsel
      exact ⟨c, hc, hcu, by rwa [hd] at hdt⟩

theorem sel2B_sound (tol : ℚ) (s0 : MState) : SoundSel (sel2B tol s0) tol := by
  intro cur i j x hx hsel
  unfold sel2B at hsel
  rw [hx] at hsel
  simp only at hsel
  by_cases hg : x.gstin = ""
  · rw [if_pos hg] at hsel
    cases hbf : bestFold cur x.amount tol (cands2B s0 x.head) Option.none with
    | none => rw [hbf] at hsel; cases hsel
    | some kd =>
      obtain ⟨k, d⟩ := kd
      rw [hbf] at hsel
      simp only [Option.map_some', Option.some_inj] at hsel
      obtain ⟨c, hc, hcu, hd, hdt⟩ :=
        bestFold_accOk cur x.amount tol _ _ (accOk_nil cur x.amount tol) k d hbf
      subst hsel
      exact ⟨c, hc, hcu, by rwa [hd] at hdt⟩
  · rw [if_neg hg] at hsel; cases hsel

theorem sel3_sound (tol : ℚ) (s0 : MState) : SoundSel (sel3 tol s0) tol := by
  intro cur i j x hx hsel
  unfold sel3 at hsel
  rw [hx] at hsel
  simp only at hsel
  cases hbf : scanBest cur x.amount tol
      ((cands3 s0 x.head).take
        (bisect_left ((cands3 s0 x.head).map (amountAt s0)) x.amount)).reverse
      (scanBest cur x.amount tol
        ((cands3 s0 x.head).drop
          (bisect_left ((cands3 s0 x.head).map (amountAt s0)) x.amount))
        Option.none) with
  | none => rw [hbf] at hsel; cases hsel
  | some kd =>
    obtain ⟨k, d⟩ := kd
    rw [hbf] at hsel
    simp only [Option.map_some', Option.some_inj] at hsel
    have hok : AccOk3 cur x.amount tol (some (k, d)) := by
      rw [← hbf]
      exact scanBest_accOk3 cur x.amount tol _ _
        (scanBest_accOk3 cur x.amount tol _ _ (accOk3_nil cur x.amount tol))
    obtain ⟨c, hc, hcu, hd, hdt⟩ := hok k d rfl
    subst hsel
    refine ⟨c, hc, hcu, ?_⟩
    rw [abs_sub_comm]
    rwa [hd] at hdt

/-!  ## The matching invariant

Everything claims C1-C3 need: counters, bounds, uniqueness and symmetry of
match ids, tolerance of linked pairs, and all-or-nothing match fields. -/

/-- Invoices as produced by `read_invoices`: no match fields set. -/
def Fresh (l : List Invoice) : Prop :=
  ∀ v ∈ l, v.match_id = Option.none ∧ v.match_type = Option.none ∧
    v.matched_with_row = Option.none

/-- The matching invariant, preserved by every linking step. -/
structure InvOK (tol : ℚ) (s : MState) : Prop where
  cpos : 1 ≤ s.counter
  bound1 : ∀ (i : Nat) (x : Invoice) (m : Nat),
    s.l1[i]? = some x → x.match_id = some m → 1 ≤ m ∧ m < s.counter
  bound2 : ∀ (j : Nat) (y : Invoice) (m : Nat),
    s.l2[j]? = some y → y.match_id = some m → 1 ≤ m ∧ m < s.counter
  uniq1 : ∀ (i i' : Nat) (x x' : Invoice) (m : Nat), s.l1[i]? = some x →
    s.l1[i']? = some x' → x.match_id = some m → x'.match_id = some m → i = i'
  uniq2 : ∀ (j j' : Nat) (y y' : Invoice) (m : Nat), s.l2[j]? = some y →
    s.l2[j']? = some y' → y.match_id = some m → y'.match_id = some m → j = j'
  surj1 : ∀ m : Nat, 1 ≤ m → m < s.counter →
    ∃ (i : Nat) (x : Invoice), s.l1[i]? = some x ∧ x.match_id = some m
  surj2 : ∀ m : Nat, 1 ≤ m → m < s.counter →
    ∃ (j : Nat) (y : Invoice), s.l2[j]? = some y ∧ y.match_id = some m
  pair : ∀ (i j : Nat) (x y : Invoice) (m : Nat), s.l1[i]? = some x →
    s.l2[j]? = some y → x.match_id = some m → y.match_id = some m →
    x.matched_with_row = some y.row_idx ∧ y.matched_with_row = some x.row_idx ∧
    |x.amount - y.amount| ≤ tol ∧ x.match_type = y.match_type ∧
    x.match_type.isSome
  fresh1 : ∀ (i : Nat) (x : Invoice), s.l1[i]? = some x →
    x.match_id = Option.none →
    x.match_type = Option.none ∧ x.matched_with_row = Option.none
  fresh2 : ∀ (j : Nat) (y : Invoice), s.l2[j]? = some y →
    y.match_id = Option.none →
    y.match_type = Option.none ∧ y.matched_with_row = Option.none

theorem initState_invOK (tol : ℚ) (l1 l2 : List Invoice)
    (h1 : Fresh l1) (h2 : Fresh l2) : InvOK tol (initState l1 l2) := by
  refine ⟨Nat.le_refl 1, ?_, ?_, ?_, ?_, ?_, ?_, ?_, ?_, ?_⟩
  · intro i x m hx hm
    rcases h1 x (List.getElem?_mem hx) with ⟨h, -, -⟩
    rw [h] at hm
    cases hm
  · intro j y m hy hm
    rcases h2 y (List.getElem?_mem hy) with ⟨h, -, -⟩
    rw [h] at hm
    cases hm
  · intro i i' x x' m hx hx' hm hm'
    rcases h1 x (List.getElem?_mem hx) with ⟨h, -, -⟩
    rw [h] at hm
    cases hm
  · intro j j' y y' m hy hy' hm hm'
    rcases h2 y (List.getElem?_mem hy) with ⟨h, -, -⟩
    rw [h] at hm
    cases hm
  · intro m hm1 hm2
    exact absurd (Nat.lt_of_le_of_lt hm1 hm2) (Nat.lt_irrefl 1)
  · intro m hm1 hm2
    exact absurd (Nat.lt_of_le_of_lt hm1 hm2) (Nat.lt_irrefl 1)
  · intro i j x y m hx hy hm hm'
    rcases h1 x (List.getElem?_mem hx) with ⟨h, -, -⟩
    rw [h] at hm
    cases hm
  · intro i x hx _
    rcases h1 x (List.getElem?_mem hx) with ⟨-, ha, hb⟩
    exact ⟨ha, hb⟩
  · intro j y hy _
    rcases h2 y (List.getElem?_mem hy) with ⟨-, ha, hb⟩
    exact ⟨ha, hb⟩

theorem linkAt_invOK (tol : ℚ) (s : MState) (i j : Nat) (ty : String)
    (x y : Invoice) (hs : InvOK tol s)
    (hx : s.l1[i]? = some x) (hy : s.l2[j]? = some y)
    (hxu : x.match_id = Option.none) (hyu : y.match_id = Option.none)
    (hd : |x.amount - y.amount| ≤ tol) : InvOK tol (linkAt s i j ty) := by
  have hg1 := linkAt_l1_get s i j ty x y hx hy
  have hg2 := linkAt_l2_get s i j ty x y hx hy
  have hcnt := linkAt_counter s i j ty x y hx hy
  refine ⟨?_, ?_, ?_, ?_, ?_, ?_, ?_, ?_, ?_, ?_⟩
  · rw [hcnt]; omega
  · intro k z m hz hm
    rw [hg1 k] at hz
    by_cases hik : i = k
    · rw [if_pos hik, Option.some_inj] at hz
      rw [← hz] at hm
      simp only [claimInv, Option.some_inj] at hm
      have := hs.cpos
      rw [hcnt]
      omega
    · rw [if_neg hik] at hz
      have := hs.bound1 k z m hz hm
      rw [hcnt]
      omega
  · intro k z m hz hm
    rw [hg2 k] at hz
    by_cases hjk : j = k
    · rw [if_pos hjk, Option.some_inj] at hz
      rw [← hz] at hm
      simp only [claimInv, Option.some_inj] at hm
      have := hs.cpos
      rw [hcnt]
      omega
    · rw [if_neg hjk] at hz
      have := hs.bound2 k z m hz hm
      rw [hcnt]
      omega
  · intro k k' z z' m hz hz' hm hm'
    rw [hg1 k] at hz
    rw [hg1 k'] at hz'
    by_cases hik : i = k <;> by_cases hik' : i = k'
    · omega
    · rw [if_pos hik, Option.some_inj] at hz
      rw [if_neg hik'] at hz'
      rw [← hz] at hm
      simp only [claimInv, Option.some_inj] at hm
      have := hs.bound1 k' z' m hz' hm'
      omega
    · rw [if_neg hik] at hz
      rw [if_pos hik', Option.some_inj] at hz'
      rw [← hz'] at hm'
      simp only [claimInv, Option.some_inj] at hm'
      have := hs.bound1 k z m hz hm
      omega
    · rw [if_neg hik] at hz
      rw [if_neg hik'] at hz'
      exact hs.uniq1 k k' z z' m hz hz' hm hm'
  · intro k k' z z' m hz hz' hm hm'
    rw [hg2 k] at hz
    rw [hg2 k'] at hz'
    by_cases hjk : j = k <;> by_cases hjk' : j = k'
    · omega
    · rw [if_pos hjk, Option.some_inj] at hz
      rw [if_neg hjk'] at hz'
      rw [← hz] at hm
      simp only [claimInv, Option.some_inj] at hm
      have := hs.bound2 k' z' m hz' hm'
      omega
    · rw [if_neg hjk] at hz
      rw [if_pos hjk', Option.some_inj] at hz'
      rw [← hz'] at hm'
      simp only [claimInv, Option.some_inj] at hm'
      have := hs.bound2 k z m hz hm
      omega
    · rw [if_neg hjk] at hz
      rw [if_neg hjk'] at hz'
      exact hs.uniq2 k k' z z' m hz hz' hm hm'
  · intro m hm1 hm2
    rw [hcnt] at hm2
    by_cases hmc : m = s.counter
    · refine ⟨i, claimInv x s.counter ty y.row_idx, ?_, ?_⟩
      · rw [hg1 i, if_pos rfl]
      · simp [claimInv, hmc]
    · have hmlt : m < s.counter := by omega
      obtain ⟨i0, x0, hx0, hm0⟩ := hs.surj1 m hm1 hmlt
      refine ⟨i0, x0, ?_, hm0⟩
      rw [hg1 i0]
      by_cases hii : i = i0
      · exfalso
        rw [← hii, hx, Option.some_inj] at hx0
        rw [← hx0, hxu] at hm0
        cases hm0
      · rw [if_neg hii]
        exact hx0
  · intro m hm1 hm2
    rw [hcnt] at hm2
    by_cases hmc : m = s.counter
    · refine ⟨j, claimInv y s.counter ty x.row_idx, ?_, ?_⟩
      · rw [hg2 j, if_pos rfl]
      · simp [claimInv, hmc]
    · have hmlt : m < s.counter := by omega
      obtain ⟨j0, y0, hy0, hm0⟩ := hs.surj2 m hm1 hmlt
      refine ⟨j0, y0, ?_, hm0⟩
      rw [hg2 j0]
      by_cases hjj : j = j0
      · exfalso
        rw [← hjj, hy, Option.some_inj] at hy0
        rw [← hy0, hyu] at hm0
        cases hm0
      · rw [if_neg hjj]
        exact hy0
  · intro k k' z z' m hz hz' hm hm'
    rw [hg1 k] at hz
    rw [hg2 k'] at hz'
    by_cases hik : i = k <;> by_cases hjk : j = k'
    · rw [if_pos hik, Option.some_inj] at hz
      rw [if_pos hjk, Option.some_inj] at hz'
      rw [← hz, ← hz']
      refine ⟨?_, ?_, ?_, ?_, ?_⟩ <;> simp [claimInv, hd]
    · rw [if_pos hik, Option.some_inj] at hz
      rw [if_neg hjk] at hz'
      rw [← hz] at hm
      simp only [claimInv, Option.some_inj] at hm
      have := hs.bound2 k' z' m hz' hm'
      omega
    · rw [if_neg hik] at hz
      rw [if_pos hjk, Option.some_inj] at hz'
      rw [← hz'] at hm'
      simp only [claimInv, Option.some_inj] at hm'
      have := hs.bound1 k z m hz hm
      omega
    · rw [if_neg hik] at hz
      rw [if_neg hjk] at hz'
      exact hs.pair k k' z z' m hz hz' hm hm'
  · intro k z hz hzu
    rw [hg1 k] at hz
    by_cases hik : i = k
    · rw [if_pos hik, Option.some_inj] at hz
      rw [← hz] at hzu
      simp [claimInv] at hzu
    · rw [if_neg hik] at hz
      exact hs.fresh1 k z hz hzu
  · intro k z hz hzu
    rw [hg2 k] at hz
    by_cases hjk : j = k
    · rw [if_pos hjk, Option.some_inj] at hz
      rw [← hz] at hzu
      simp [claimInv] at hzu
    · rw [if_neg hjk] at hz
      exact hs.fresh2 k z hz hzu

theorem passStep_invOK (sel : MState → Nat → Option Nat)
    (ty : MState → Nat → Nat → String) (tol : ℚ) (hsel : SoundSel sel tol)
    (s : MState) (i : Nat) (hs : InvOK tol s) :
    InvOK tol (passStep sel ty s i) := by
  unfold passStep
  cases h1 : s.l1[i]? with
  | none => exact hs
  | some x =>
    by_cases h2 : x.match_id.isSome
    · simp [h2]; exact hs
    · simp only [h2, if_false, Bool.false_eq_true]
      cases h3 : sel s i with
      | none => simp only; exact hs
      | some j =>
        simp only
        obtain ⟨y, hy, hyu, hd⟩ := hsel s i j x h1 h3
        exact linkAt_invOK tol s i j _ x y hs h1 hy
          (Option.not_isSome_iff_eq_none.mp h2) hyu hd

theorem foldl_passStep_invOK (sel : MState → Nat → Option Nat)
    (ty : MState → Nat → Nat → String) (tol : ℚ) (hsel : SoundSel sel tol) :
    ∀ (L : List Nat) (s : MState), InvOK tol s →
      InvOK tol (L.foldl (passStep sel ty) s)
  | [], _, hs => hs
  | i :: L, s, hs =>
    foldl_passStep_invOK sel ty tol hsel L _
      (passStep_invOK sel ty tol hsel s i hs)

theorem runPass_invOK (sel : MState → Nat → Option Nat)
    (ty : MState → Nat → Nat → String) (tol : ℚ) (hsel : SoundSel sel tol)
    (s : MState) (hs : InvOK tol s) : InvOK tol (runPass sel ty s) :=
  foldl_passStep_invOK sel ty tol hsel _ s hs

theorem match_invoices_invOK (list1 list2 : List Invoice) (tol : ℚ)
    (name1 name2 : String) (h1 : Fresh list1) (h2 : Fresh list2) :
    InvOK tol (match_invoices list1 list2 tol name1 name2) := by
  unfold match_invoices phase1 phase2A phase2B phase3
  apply runPass_invOK _ _ tol (sel3_sound tol _)
  apply runPass_invOK _ _ tol (sel2B_sound tol _)
  apply runPass_invOK _ _ tol (sel2A_sound tol _)
  apply runPass_invOK _ _ tol (sel1_sound tol _)
  exact initState_invOK tol list1 list2 h1 h2

/-!  ## Claims C1, C2, C3 -/

/-- C1: For every matched pair `(a, b)` produced by any of the three matching
phases of `match_invoices` (two records across the lists sharing a match id),
for every non-negative tolerance, `|a.amount - b.amount| ≤ tolerance`: no
phase ever links two records whose amounts differ by more than the
caller-supplied tolerance. -/
theorem c1_tolerance_bound (list1 list2 : List Invoice) (tol : ℚ)
    (name1 name2 : String) (_htol : 0 ≤ tol)
    (h1 : Fresh list1) (h2 : Fresh list2) (i j : Nat) (x y : Invoice) (m : Nat)
    (hx : (match_invoices list1 list2 tol name1 name2).l1[i]? = some x)
    (hy : (match_invoices list1 list2 tol name1 name2).l2[j]? = some y)
    (hmx : x.match_id = some m) (hmy : y.match_id = some m) :
    |x.amount - y.amount| ≤ tol :=
  ((match_invoices_invOK list1 list2 tol name1 name2 h1 h2).pair
    i j x y m hx hy hmx hmy).2.2.1

/-- Concrete input for the C1 witness: one record per list, same GSTIN and
head, amounts 100 and 100.5. -/
def c1A : Invoice :=
  { row_idx := 2, gstin := "G1", igst := 100, cgst := 0, sgst := 0,
    party := "", head := "IGST", amount := 100, source := "S1",
    match_id := Option.none, match_type := Option.none,
    matched_with_row := Option.none }

/-- Second list record for the C1 witness. -/
def c1B : Invoice :=
  { c1A with
    row_idx := 2, gstin := "G1", igst := 100.5, amount := 100.5,
    source := "S2" }

theorem c1_tolerance_bound_witness : |(100 : ℚ) - 100.5| ≤ 1 :=
  c1_tolerance_bound [c1A] [c1B] 1 "S1" "S2" (by decide) (by unfold Fresh; decide) (by unfold Fresh; decide)
    0 0 (claimInv c1A 1 "Perfect Match" 2) (claimInv c1B 1 "Perfect Match" 2) 1
    (by decide) (by decide) (by decide) (by decide)

/-- C2: after `match_invoices` on fresh inputs, matching is symmetric
(`a.matched_with_row = b.row_idx`, `b.matched_with_row = a.row_idx`, equal
match ids) and every assigned match id is a positive integer held by exactly
two records, one from each input list. -/
theorem c2_match_id_pairing (list1 list2 : List Invoice) (tol : ℚ)
    (name1 name2 : String) (h1 : Fresh list1) (h2 : Fresh list2) :
    (∀ (i j : Nat) (x y : Invoice) (m : Nat),
      (match_invoices list1 list2 tol name1 name2).l1[i]? = some x →
      (match_invoices list1 list2 tol name1 name2).l2[j]? = some y →
      x.match_id = some m → y.match_id = some m →
      x.matched_with_row = some y.row_idx ∧
      y.matched_with_row = some x.row_idx) ∧
    (∀ m : Nat,
      ((∃ (i : Nat) (x : Invoice),
          (match_invoices list1 list2 tol name1 name2).l1[i]? = some x ∧
          x.match_id = some m) ∨
       (∃ (j : Nat) (y : Invoice),
          (match_invoices list1 list2 tol name1 name2).l2[j]? = some y ∧
          y.match_id = some m)) →
      1 ≤ m ∧
      (∃! i : Nat, ∃ x : Invoice,
        (match_invoices list1 list2 tol name1 name2).l1[i]? = some x ∧
        x.match_id = some m) ∧
      (∃! j : Nat, ∃ y : Invoice,
        (match_invoices list1 list2 tol name1 name2).l2[j]? = some y ∧
        y.match_id = some m)) := by
  have hinv := match_invoices_invOK list1 list2 tol name1 name2 h1 h2
  constructor
  · intro i j x y m hx hy hmx hmy
    have := hinv.pair i j x y m hx hy hmx hmy
    exact ⟨this.1, this.2.1⟩
  · intro m hm
    have hb : 1 ≤ m ∧ m < (match_invoices list1 list2 tol name1 name2).counter := by
      rcases hm with ⟨i, x, hx, hmx⟩ | ⟨j, y, hy, hmy⟩
      · exact hinv.bound1 i x m hx hmx
      · exact hinv.bound2 j y m hy hmy
    obtain ⟨i0, x0, hx0, hm0⟩ := hinv.surj1 m hb.1 hb.2
    obtain ⟨j0, y0, hy0, hn0⟩ := hinv.surj2 m hb.1 hb.2
    refine ⟨hb.1, ⟨i0, ⟨x0, hx0, hm0⟩, ?_⟩, ⟨j0, ⟨y0, hy0, hn0⟩, ?_⟩⟩
    · intro i1 hi1
      obtain ⟨x1, hx1, hm1⟩ := hi1
      exact hinv.uniq1 i1 i0 x1 x0 m hx1 hx0 hm1 hm0
    · intro j1 hj1
      obtain ⟨y1, hy1, hn1⟩ := hj1
      exact hinv.uniq2 j1 j0 y1 y0 m hy1 hy0 hn1 hn0

/-- Concrete fresh input for the C2 witness. -/
def c2A : Invoice :=
  { row_idx := 2, gstin := "G7", igst := 40, cgst := 0, sgst := 0,
    party := "", head := "IGST", amount := 40, source := "S1",
    match_id := Option.none, match_type := Option.none,
    matched_with_row := Option.none }

/-- Second list record for the C2 witness. -/
def c2B : Invoice :=
  { c2A with
    row_idx := 5, igst := 40.2, amount := 40.2, source := "S2" }

theorem c2_match_id_pairing_witness :
    (claimInv c2A 1 "Perfect Match" 5).matched_with_row =
      some (claimInv c2B 1 "Perfect Match" 2).row_idx ∧
    (claimInv c2B 1 "Perfect Match" 2).matched_with_row =
      some (claimInv c2A 1 "Perfect Match" 5).row_idx :=
  (c2_match_id_pairing [c2A] [c2B] 1 "S1" "S2" (by unfold Fresh; decide)
    (by unfold Fresh; decide)).1
    0 0 (claimInv c2A 1 "Perfect Match" 5) (claimInv c2B 1 "Perfect Match" 2) 1
    (by decide) (by decide) (by decide) (by decide)

/-- C3: a record's match fields are set by at most one phase: a record that
is already claimed when any phase (or the remainder of the pipeline) starts
comes out of it completely unchanged, so no later phase or later iteration
modifies its match fields and no record is ever claimed by two different
matches. -/
theorem c3_claimed_immutable (tol : ℚ) (name1 name2 : String) (s : MState) :
    (∀ (i : Nat) (x : Invoice), s.l1[i]? = some x → x.match_id.isSome →
      (phase1 tol s).l1[i]? = some x ∧ (phase2A tol name2 s).l1[i]? = some x ∧
      (phase2B tol name1 s).l1[i]? = some x ∧ (phase3 tol s).l1[i]? = some x ∧
      (phase3 tol (phase2B tol name1 (phase2A tol name2
        (phase1 tol s)))).l1[i]? = some x) ∧
    (∀ (j : Nat) (y : Invoice), s.l2[j]? = some y → y.match_id.isSome →
      (phase1 tol s).l2[j]? = some y ∧ (phase2A tol name2 s).l2[j]? = some y ∧
      (phase2B tol name1 s).l2[j]? = some y ∧ (phase3 tol s).l2[j]? = some y ∧
      (phase3 tol (phase2B tol name1 (phase2A tol name2
        (phase1 tol s)))).l2[j]? = some y) := by
  have st1 : ∀ u : MState, Steps u (phase1 tol u) :=
    fun u => runPass_steps _ _ tol (sel1_sound tol u) u
  have st2A : ∀ u : MState, Steps u (phase2A tol name2 u) :=
    fun u => runPass_steps _ _ tol (sel2A_sound tol u) u
  have st2B : ∀ u : MState, Steps u (phase2B tol name1 u) :=
    fun u => runPass_steps _ _ tol (sel2B_sound tol u) u
  have st3 : ∀ u : MState, Steps u (phase3 tol u) :=
    fun u => runPass_steps _ _ tol (sel3_sound tol u) u
  have stAll : Steps s (phase3 tol (phase2B tol name1 (phase2A tol name2
      (phase1 tol s)))) :=
    ((((st1 s).trans (st2A _)).trans (st2B _)).trans (st3 _))
  constructor
  · intro i x hx hc
    exact ⟨(st1 s).fwd1 i x hx hc, (st2A s).fwd1 i x hx hc,
      (st2B s).fwd1 i x hx hc, (st3 s).fwd1 i x hx hc,
      stAll.fwd1 i x hx hc⟩
  · intro j y hy hc
    exact ⟨(st1 s).fwd2 j y hy hc, (st2A s).fwd2 j y hy hc,
      (st2B s).fwd2 j y hy hc, (st3 s).fwd2 j y hy hc,
      stAll.fwd2 j y hy hc⟩

/-- Concrete state for the C3 witness: a claimed record in each list and a
fresh pair that the pipeline will link without touching the claimed ones. -/
def c3S : MState :=
  { l1 := [claimInv c2A 1 "Perfect Match" 5,
           { c2A with row_idx := 3, gstin := "G8" }]
    l2 := [claimInv c2B 1 "Perfect Match" 2,
           { c2B with row_idx := 6, gstin := "G8", igst := 40, amount := 40 }]
    counter := 2 }

theorem c3_claimed_immutable_witness :
    (phase3 1 (phase2B 1 "S1" (phase2A 1 "S2"
      (phase1 1 c3S)))).l1[0]? = some (claimInv c2A 1 "Perfect Match" 5) :=
  (((c3_claimed_immutable 1 "S1" "S2" c3S).1
    0 (claimInv c2A 1 "Perfect Match" 5) (by decide) (by decide)).2.2.2.2)

/-!  ## Claims C6 and C7 -/

theorem matchIntFrac_digit (l : List Char) (m : List Char)
    (h : matchIntFrac l = some m) : ∃ c ∈ l, c.isDigit = true := by
  unfold matchIntFrac at h
  by_cases hds : l.takeWhile Char.isDigit = []
  · rw [if_pos hds] at h
    cases h
  · cases hl : l.takeWhile Char.isDigit with
    | nil => exact absurd hl hds
    | cons c t =>
      refine ⟨c, ?_, ?_⟩
      · exact (List.takeWhile_sublist Char.isDigit).subset (hl ▸ List.mem_cons_self c t)
      · exact List.mem_takeWhile_imp (hl ▸ List.mem_cons_self c t)

theorem matchNumAt_digit (l : List Char) (m : List Char)
    (h : matchNumAt l = some m) : ∃ c ∈ l, c.isDigit = true := by
  unfold matchNumAt at h
  split at h
  · rename_i rest
    cases hmf : matchIntFrac rest with
    | none => rw [hmf] at h; cases h
    | some m0 =>
      obtain ⟨c, hc, hd⟩ := matchIntFrac_digit rest m0 hmf
      exact ⟨c, List.mem_cons_of_mem _ hc, hd⟩
  · exact matchIntFrac_digit _ _ h

theorem searchNum_digit : ∀ (l : List Char) (m : List Char),
    searchNum l = some m → ∃ c ∈ l, c.isDigit = true := by
  intro l
  induction l with
  | nil => intro m h; cases h
  | cons c rest ih =>
    intro m h
    rw [searchNum] at h
    cases hma : matchNumAt (c :: rest) with
    | some m0 =>
      obtain ⟨c1, hc1, hd1⟩ := matchNumAt_digit _ _ hma
      exact ⟨c1, hc1, hd1⟩
    | none =>
      rw [hma] at h
      obtain ⟨c1, hc1, hd1⟩ := ih m h
      exact ⟨c1, List.mem_cons_of_mem _ hc1, hd1⟩

theorem parenNeg_chars (l : List Char) (c : Char) (h : c ∈ parenNeg l) :
    c = '-' ∨ c ∈ l := by
  unfold parenNeg at h
  by_cases hp : l.head? = some '(' ∧ l.getLast? = some ')'
  · rw [if_pos hp] at h
    cases h with
    | head => exact Or.inl rfl
    | tail _ h =>
      exact Or.inr ((List.drop_sublist 1 l).subset
        ((List.dropLast_sublist (l.drop 1)).subset h))
  · rw [if_neg hp] at h
    exact Or.inr h

theorem pyStripL_chars (l : List Char) (c : Char) (h : c ∈ pyStripL l) :
    c ∈ l := by
  unfold pyStripL at h
  rw [List.mem_reverse] at h
  have h1 := (List.dropWhile_sublist isSpaceChar).subset h
  rw [List.mem_reverse] at h1
  exact (List.dropWhile_sublist isSpaceChar).subset h1

/-- C6: `to_float` is a total function on arbitrary cell values (it never
raises: totality is by construction of the embedding, mirroring the catch-all
fallbacks of the source): it parses `"₹1,234.56"` to `1234.56`, parses the
parenthesized negative `"(50.00)"` to `-50`, tolerates thousands separators
and no-break spaces, extracts the first signed decimal pattern from mixed
text, and yields `0` for `None`, for the empty string, and for any string
without a decimal pattern (in particular any string without a digit). -/
theorem c6_to_float_behavior :
    to_float (Cell.str "₹1,234.56") = 1234.56 ∧
    to_float (Cell.str "(50.00)") = -50 ∧
    to_float (Cell.str "   1,000.25 ") = 1000.25 ∧
    to_float (Cell.str "ABC -12.5 and 99") = -12.5 ∧
    to_float Cell.none = 0 ∧
    to_float (Cell.str "") = 0 ∧
    (∀ s : String, (∀ c ∈ s.data, c.isDigit = false) →
      to_float (Cell.str s) = 0) := by
  refine ⟨by decide, by decide, by decide, by decide, rfl, by decide, ?_⟩
  intro s hs
  unfold to_float
  simp only
  by_cases hemp : pyStripL s.data = []
  · rw [if_pos hemp]
  · rw [if_neg hemp]
    cases hsn : searchNum (parenNeg (stripSeps (pyStripL s.data))) with
    | none => simp only
    | some m =>
      exfalso
      obtain ⟨c, hc, hd⟩ := searchNum_digit _ _ hsn
      cases parenNeg_chars _ _ hc with
      | inl hneg => rw [hneg] at hd; cases hd
      | inr hmem =>
        have hcs : c ∈ s.data :=
          pyStripL_chars _ _ (List.mem_filter.mp hmem).1
        rw [hs c hcs] at hd
        cases hd

theorem c6_to_float_behavior_witness : to_float (Cell.str "no numbers") = 0 :=
  c6_to_float_behavior.2.2.2.2.2.2 "no numbers" (by decide)

/-- C7: tax-head classification of `Invoice.__init__`: IGST wins when
`|igst| > 0.01`, else the combined head with CGST preferred over SGST as the
amount, else `ZERO`; and `read_invoices` never hands a `ZERO` record to the
matching phases. -/
theorem c7_classification (r : Nat) (data : RawRow) (src : String) :
    (0.01 < |to_float data.igst| →
      (Invoice.make r data src).head = "IGST" ∧
      (Invoice.make r data src).amount = to_float data.igst) ∧
    (¬ 0.01 < |to_float data.igst| →
      (0.01 < |to_float data.cgst| ∨ 0.01 < |to_float data.sgst|) →
      (Invoice.make r data src).head = "CGST/SGST" ∧
      (Invoice.make r data src).amount =
        (if 0.01 < |to_float data.cgst| then to_float data.cgst
         else to_float data.sgst)) ∧
    (¬ 0.01 < |to_float data.igst| →
      ¬ (0.01 < |to_float data.cgst| ∨ 0.01 < |to_float data.sgst|) →
      (Invoice.make r data src).head = "ZERO" ∧
      (Invoice.make r data src).amount = 0) ∧
    (∀ (rows : List RawRow) (name : String),
      ∀ inv ∈ read_invoices rows name, inv.head ≠ "ZERO") := by
  refine ⟨?_, ?_, ?_, ?_⟩
  · intro hi
    unfold Invoice.make
    simp only [if_pos hi]
    constructor <;> trivial
  · intro hi hcs
    unfold Invoice.make
    simp only [if_neg hi, if_pos hcs]
    constructor <;> trivial
  · intro hi hcs
    unfold Invoice.make
    simp only [if_neg hi, if_neg hcs]
    constructor <;> trivial
  · intro rows name inv hmem
    unfold read_invoices at hmem
    obtain ⟨p, -, hp⟩ := List.mem_filterMap.mp hmem
    by_cases hre : rowEmpty p.2
    · rw [if_pos hre] at hp
      cases hp
    · rw [if_neg hre] at hp
      simp only at hp
      by_cases hz : (Invoice.make p.1 p.2 name).head ≠ "ZERO"
      · rw [if_pos hz] at hp
        rw [Option.some_inj] at hp
        rw [← hp]
        exact hz
      · rw [if_neg hz] at hp
        cases hp

/-- Concrete row for the C7 witness: an IGST amount of 100. -/
def c7Row : RawRow := { igst := Cell.num 100 }

theorem c7_classification_witness :
    (Invoice.make 2 c7Row "S").head = "IGST" ∧
    (Invoice.make 2 c7Row "S").amount = to_float c7Row.igst :=
  (c7_classification 2 c7Row "S").1 (by decide)

/-!  ## Claim C8 -/

/-- The shape `match_invoices` leaves records in (guaranteed by `InvOK`):
match id, tag and cross-reference are all-or-nothing, and tags are never the
empty string. -/
def WellFormedInv (inv : Invoice) : Prop :=
  (inv.match_id = Option.none ↔ inv.match_type = Option.none) ∧
  (inv.match_id = Option.none → inv.matched_with_row = Option.none) ∧
  inv.match_type ≠ some ""

theorem invAtRow_mem (invoices : List Invoice) (r : Nat) (inv : Invoice)
    (h : invAtRow invoices r = some inv) : inv ∈ invoices := by
  unfold invAtRow at h
  exact List.mem_reverse.mp (List.mem_of_find?_eq_some h)

/-- C8: `write_results` annotates every data row (worksheet rows
`2 .. max_row`) exactly once and in order; a row carrying a matched record
receives its tag, match id and cross-reference; a row carrying an
eligible-but-unmatched record receives "Missing in <other source>" with null
id and reference; a row with no corresponding record receives "Ignored/Zero";
no row is left without a status. -/
theorem c8_write_results (max_row : Nat) (invoices : List Invoice)
    (other : String) (hwf : ∀ inv ∈ invoices, WellFormedInv inv) :
    ((write_results max_row invoices other).map RowStatus.row =
      List.range' 2 (max_row - 1)) ∧
    (∀ a ∈ write_results max_row invoices other,
      (∃ inv, invAtRow invoices a.row = some inv ∧
        ((∃ t, inv.match_type = some t ∧ a.status = t ∧
           a.mid = inv.match_id ∧ a.mrow = inv.matched_with_row ∧
           inv.match_id ≠ Option.none) ∨
         (inv.match_type = Option.none ∧
           a.status = "Missing in " ++ other ∧
           a.mid = Option.none ∧ a.mrow = Option.none))) ∨
      (invAtRow invoices a.row = Option.none ∧ a.status = "Ignored/Zero" ∧
        a.mid = Option.none ∧ a.mrow = Option.none)) := by
  constructor
  · unfold write_results
    rw [List.map_map]
    have : ∀ r ∈ List.range' 2 (max_row - 1),
        (RowStatus.row ∘ (fun r =>
          match invAtRow invoices r with
          | some inv =>
            { row := r, status := statusOf inv other, mid := inv.match_id,
              mrow := inv.matched_with_row }
          | Option.none =>
            { row := r, status := "Ignored/Zero", mid := Option.none,
              mrow := Option.none })) r = id r := by
      intro r _
      simp only [Function.comp_apply, id_eq]
      cases invAtRow invoices r <;> rfl
    rw [List.map_congr_left this, List.map_id]
  · intro a ha
    unfold write_results at ha
    obtain ⟨r, -, hfr⟩ := List.mem_map.mp ha
    cases h : invAtRow invoices r with
    | none =>
      rw [h] at hfr
      simp only at hfr
      right
      rw [← hfr]
      exact ⟨h, rfl, rfl, rfl⟩
    | some inv =>
      rw [h] at hfr
      simp only at hfr
      left
      refine ⟨inv, by rw [← hfr]; exact h, ?_⟩
      obtain ⟨hiff, hmr, hne⟩ := hwf inv (invAtRow_mem invoices r inv h)
      cases hmt : inv.match_type with
      | none =>
        right
        have hmid : inv.match_id = Option.none := hiff.mpr hmt
        refine ⟨rfl, ?_, ?_, ?_⟩
        · rw [← hfr]
          simp only [statusOf, hmt]
        · rw [← hfr]
          exact hmid
        · rw [← hfr]
          exact hmr hmid
      | some t =>
        left
        refine ⟨t, rfl, ?_, by rw [← hfr], by rw [← hfr], ?_⟩
        · rw [← hfr]
          simp only [statusOf, hmt]
          rw [if_neg (fun ht => hne (by rw [hmt, ht]))]
        · intro hmid
          rw [hiff.mp hmid] at hmt
          cases hmt

/-- Matched record (row 2) for the C8 witness. -/
def c8I1 : Invoice :=
  { row_idx := 2, gstin := "G1", igst := 10, cgst := 0, sgst := 0,
    party := "", head := "IGST", amount := 10, source := "S1",
    match_id := some 1, match_type := some "Perfect Match",
    matched_with_row := some 7 }

/-- Unmatched record (row 3) for the C8 witness. -/
def c8I2 : Invoice :=
  { c8I1 with
    row_idx := 3, match_id := Option.none, match_type := Option.none,
    matched_with_row := Option.none }

theorem c8_write_results_witness :
    (write_results 4 [c8I1, c8I2] "S2").map RowStatus.row =
      List.range' 2 3 :=
  (c8_write_results 4 [c8I1, c8I2] "S2"
    (by unfold WellFormedInv; decide)).1

/-!  ## Claim C9 -/

/-- The configuration-check prefix of `process_reconciliation`, isolated: the
first failing check's message, or nothing when the configuration is valid.
It depends only on the sheet list, the provided names and the header maps -
not on the data rows or the tolerance. -/
def configError (sheets : List String) (sheet1 sheet2 : Option String)
    (wsMap : String → HeaderMap) : Option String :=
  let names := resolveNames sheets sheet1 sheet2
  if optFalsy names.1 || optFalsy names.2 then
    some ("Could not auto-detect sheets. and none provided. Available: " ++
      pyListRepr sheets)
  else
    let n1 := names.1.getD ""
    let n2 := names.2.getD ""
    if n1 = n2 then some "Sheet 1 and Sheet 2 must be different."
    else if ¬ (n1 ∈ sheets ∧ n2 ∈ sheets) then
      some ("One of the sheets not found. Available: " ++ pyListRepr sheets)
    else
      match validate_map (wsMap n1) n1 with
      | Except.error e => some e
      | Except.ok _ =>
        match validate_map (wsMap n2) n2 with
        | Except.error e => some e
        | Except.ok _ => Option.none

theorem validate_map_error_iff (m : HeaderMap) (n : String) :
    (∃ e, validate_map m n = Except.error e) ↔
      (m.gstin = Option.none ∨
       (m.igst = Option.none ∧ m.cgst = Option.none ∧ m.sgst = Option.none)) := by
  unfold validate_map
  by_cases h1 : m.gstin.isNone
  · simp only [if_pos h1]
    constructor
    · intro _
      exact Or.inl (Option.isNone_iff_eq_none.mp h1)
    · intro _
      exact ⟨_, rfl⟩
  · rw [if_neg h1]
    by_cases h2 : m.igst.isNone ∧ m.cgst.isNone ∧ m.sgst.isNone
    · simp only [if_pos h2]
      constructor
      · intro _
        refine Or.inr ⟨?_, ?_, ?_⟩ <;>
          simp [Option.isNone_iff_eq_none.mp h2.1,
            Option.isNone_iff_eq_none.mp h2.2.1,
            Option.isNone_iff_eq_none.mp h2.2.2]
      · intro _
        exact ⟨_, rfl⟩
    · simp only [if_neg h2]
      constructor
      · intro ⟨e, he⟩
        cases he
      · intro h
        exfalso
        cases h with
        | inl hg => exact h1 (Option.isNone_iff_eq_none.mpr hg)
        | inr ht =>
          exact h2 ⟨Option.isNone_iff_eq_none.mpr ht.1,
            Option.isNone_iff_eq_none.mpr ht.2.1,
            Option.isNone_iff_eq_none.mpr ht.2.2⟩

theorem process_eq_configError (sheets : List String)
    (wsMap : String → HeaderMap) (wsRows : String → List RawRow)
    (sheet1 sheet2 : Option String) (tolerance : ℚ) :
    process_reconciliation sheets wsMap wsRows sheet1 sheet2 tolerance =
      (match configError sheets sheet1 sheet2 wsMap with
       | some e => Except.error e
       | Option.none =>
         Except.ok
           (write_results
             ((wsRows ((resolveNames sheets sheet1 sheet2).1.getD "")).length + 1)
             (match_invoices
               (read_invoices
                 (wsRows ((resolveNames sheets sheet1 sheet2).1.getD ""))
                 ((resolveNames sheets sheet1 sheet2).1.getD ""))
               (read_invoices
                 (wsRows ((resolveNames sheets sheet1 sheet2).2.getD ""))
                 ((resolveNames sheets sheet1 sheet2).2.getD ""))
               tolerance ((resolveNames sheets sheet1 sheet2).1.getD "")
               ((resolveNames sheets sheet1 sheet2).2.getD "")).l1
             ((resolveNames sheets sheet1 sheet2).2.getD ""),
            write_results
             ((wsRows ((resolveNames sheets sheet1 sheet2).2.getD "")).length + 1)
             (match_invoices
               (read_invoices
                 (wsRows ((resolveNames sheets sheet1 sheet2).1.getD ""))
                 ((resolveNames sheets sheet1 sheet2).1.getD ""))
               (read_invoices
                 (wsRows ((resolveNames sheets sheet1 sheet2).2.getD ""))
                 ((resolveNames sheets sheet1 sheet2).2.getD ""))
               tolerance ((resolveNames sheets sheet1 sheet2).1.getD "")
               ((resolveNames sheets sheet1 sheet2).2.getD "")).l2
             ((resolveNames sheets sheet1 sheet2).1.getD ""))) := by
  unfold process_reconciliation configError
  simp only
  split_ifs with h1 h2 h3
  all_goals try rfl
  all_goals
    cases validate_map (wsMap ((resolveNames sheets sheet1 sheet2).1.getD ""))
        ((resolveNames sheets sheet1 sheet2).1.getD "") <;>
    cases validate_map (wsMap ((resolveNames sheets sheet1 sheet2).2.getD ""))
        ((resolveNames sheets sheet1 sheet2).2.getD "") <;>
    rfl

theorem process_error_iff_configError (sheets : List String)
    (wsMap : String → HeaderMap) (wsRows : String → List RawRow)
    (sheet1 sheet2 : Option String) (tolerance : ℚ) (e : String) :
    process_reconciliation sheets wsMap wsRows sheet1 sheet2 tolerance =
        Except.error e ↔
      configError sheets sheet1 sheet2 wsMap = some e := by
  rw [process_eq_configError]
  cases h : configError sheets sheet1 sheet2 wsMap with
  | some e0 => simp
  | none => simp

theorem configError_some_iff (sheets : List String)
    (sheet1 sheet2 : Option String) (wsMap : String → HeaderMap) :
    (∃ e, configError sheets sheet1 sheet2 wsMap = some e) ↔
      ConfigInvalid sheets sheet1 sheet2 wsMap := by
  unfold configError ConfigInvalid
  simp only
  split_ifs with h1 h2 h3
  · constructor
    · intro _
      rcases (Bool.or_eq_true _ _).mp h1 with h | h
      · exact Or.inl h
      · exact Or.inr (Or.inl h)
    · intro _
      exact ⟨_, rfl⟩
  · constructor
    · intro _
      exact Or.inr (Or.inr (Or.inl h2))
    · intro _
      exact ⟨_, rfl⟩
  · have h3' := h3
    rw [Bool.or_eq_true, not_or] at h1
    cases hv1 : validate_map
        (wsMap ((resolveNames sheets sheet1 sheet2).1.getD ""))
        ((resolveNames sheets sheet1 sheet2).1.getD "") with
    | error e =>
      constructor
      · intro _
        rcases (validate_map_error_iff _ _).mp ⟨e, hv1⟩ with h | h
        · exact Or.inr (Or.inr (Or.inr (Or.inr (Or.inr (Or.inl h)))))
        · exact Or.inr (Or.inr (Or.inr (Or.inr (Or.inr (Or.inr (Or.inr
            (Or.inl h)))))))
      · intro _
        exact ⟨e, rfl⟩
    | ok u =>
      cases hv2 : validate_map
          (wsMap ((resolveNames sheets sheet1 sheet2).2.getD ""))
          ((resolveNames sheets sheet1 sheet2).2.getD "") with
      | error e =>
        constructor
        · intro _
          rcases (validate_map_error_iff _ _).mp ⟨e, hv2⟩ with h | h
          · exact Or.inr (Or.inr (Or.inr (Or.inr (Or.inr (Or.inr
              (Or.inl h))))))
          · exact Or.inr (Or.inr (Or.inr (Or.inr (Or.inr (Or.inr (Or.inr
              (Or.inr h)))))))
        · intro _
          exact ⟨e, rfl⟩
      | ok v =>
        constructor
        · intro ⟨e, he⟩
          cases he
        · intro hd
          exfalso
          rcases hd with h | h | h | h | h | h | h | h | h
          · exact h1.1 h
          · exact h1.2 h
          · exact h2 h
          · exact h h3'.1
          · exact h h3'.2
          · obtain ⟨e, he⟩ := (validate_map_error_iff _ _).mpr (Or.inl h)
            rw [hv1] at he
            cases he
          · obtain ⟨e, he⟩ := (validate_map_error_iff _ _).mpr (Or.inl h)
            rw [hv2] at he
            cases he
          · obtain ⟨e, he⟩ := (validate_map_error_iff _ _).mpr (Or.inr h)
            rw [hv1] at he
            cases he
          · obtain ⟨e, he⟩ := (validate_map_error_iff _ _).mpr (Or.inr h)
            rw [hv2] at he
            cases he
  · constructor
    · intro _
      rcases not_and_or.mp h3 with h | h
      · exact Or.inr (Or.inr (Or.inr (Or.inl h)))
      · exact Or.inr (Or.inr (Or.inr (Or.inr (Or.inl h))))
    · intro _
      exact ⟨_, rfl⟩

/-- C9: `process_reconciliation` raises an error before any matching starts -
producing no output - exactly when the configuration is invalid (identical or
unresolvable sheet names, a sheet not in the workbook, a missing identifier
column, or no tax column at all); the error does not depend on the data rows
or the tolerance (it is decided before matching), the message reaches the
caller verbatim (a 500 payload carrying `str(e)` in `upload_file`), and a
valid configuration always yields an output - no error originates from the
matching phases themselves. -/
theorem c9_config_errors (sheets : List String) (wsMap : String → HeaderMap)
    (wsRowsA wsRowsB : String → List RawRow) (sheet1 sheet2 : Option String)
    (tolA tolB : ℚ) :
    ((∃ e, process_reconciliation sheets wsMap wsRowsA sheet1 sheet2 tolA =
        Except.error e) ↔ ConfigInvalid sheets sheet1 sheet2 wsMap) ∧
    (∀ e, process_reconciliation sheets wsMap wsRowsA sheet1 sheet2 tolA =
        Except.error e →
      process_reconciliation sheets wsMap wsRowsB sheet1 sheet2 tolB =
        Except.error e) ∧
    (∀ e, process_reconciliation sheets wsMap wsRowsA sheet1 sheet2 tolA =
        Except.error e →
      upload_outcome (process_reconciliation sheets wsMap wsRowsA sheet1
        sheet2 tolA) = (e, 500)) ∧
    (¬ ConfigInvalid sheets sheet1 sheet2 wsMap →
      ∃ out, process_reconciliation sheets wsMap wsRowsA sheet1 sheet2 tolA =
        Except.ok out) := by
  refine ⟨?_, ?_, ?_, ?_⟩
  · constructor
    · intro ⟨e, he⟩
      exact (configError_some_iff sheets sheet1 sheet2 wsMap).mp
        ⟨e, (process_error_iff_configError sheets wsMap wsRowsA sheet1 sheet2
          tolA e).mp he⟩
    · intro hc
      obtain ⟨e, he⟩ := (configError_some_iff sheets sheet1 sheet2 wsMap).mpr hc
      exact ⟨e, (process_error_iff_configError sheets wsMap wsRowsA sheet1
        sheet2 tolA e).mpr he⟩
  · intro e he
    exact (process_error_iff_configError sheets wsMap wsRowsB sheet1 sheet2
      tolB e).mpr
      ((process_error_iff_configError sheets wsMap wsRowsA sheet1 sheet2
        tolA e).mp he)
  · intro e he
    rw [he]
    rfl
  · intro hc
    cases hp : process_reconciliation sheets wsMap wsRowsA sheet1 sheet2 tolA with
    | ok out => exact ⟨out, rfl⟩
    | error e =>
      exfalso
      exact hc ((configError_some_iff sheets sheet1 sheet2 wsMap).mp
        ⟨e, (process_error_iff_configError sheets wsMap wsRowsA sheet1 sheet2
          tolA e).mp hp⟩)

theorem c9_config_errors_witness :
    upload_outcome (process_reconciliation ["Data"] (fun _ => {})
      (fun _ => []) (some "Data") (some "Data") 1) =
      ("Sheet 1 and Sheet 2 must be different.", 500) :=
  (c9_config_errors ["Data"] (fun _ => {}) (fun _ => []) (fun _ => [])
    (some "Data") (some "Data") 1 1).2.2.1
    "Sheet 1 and Sheet 2 must be different." (by rfl)

/-!  ## Claim C4

The tie-break claim fails in phase 3: the outward scan prefers the right
side of the insertion point on equal differences, regardless of row order.
The scan of phases 1 and 2 (`bestFold`) does satisfy it. -/

/-- List-1 record of the C4 counterexample. -/
def c4A : Invoice :=
  { row_idx := 2, gstin := "G1", igst := 100, cgst := 0, sgst := 0,
    party := "", head := "IGST", amount := 100, source := "S1",
    match_id := Option.none, match_type := Option.none,
    matched_with_row := Option.none }

/-- Earlier list-2 candidate (row 2, amount 99.5, difference 1/2). -/
def c4B1 : Invoice :=
  { c4A with
    gstin := "G2", igst := 99.5, amount := 99.5, source := "S2" }

/-- Later list-2 candidate (row 3, amount 100.5, difference 1/2). -/
def c4B2 : Invoice :=
  { c4A with
    row_idx := 3, gstin := "G3", igst := 100.5, amount := 100.5,
    source := "S2" }

/-- C4 as stated is false: with tolerance 1, both list-2 candidates tie at
difference 1/2 and the earlier one in row order is row 2, yet the phase that
matches the record (phase 3, since the GSTINs all differ) links it to
row 3 - the right-hand side of the insertion point wins the tie, not the
earlier row. -/
theorem c4_counterexample :
    |c4A.amount - c4B1.amount| = |c4A.amount - c4B2.amount| ∧
    |c4A.amount - c4B1.amount| ≤ 1 ∧
    c4B1.row_idx < c4B2.row_idx ∧
    ((match_invoices [c4A] [c4B1, c4B2] 1 "S1" "S2").l1[0]?).map
      (fun v => v.matched_with_row) = some (some c4B2.row_idx) ∧
    c4B2.row_idx ≠ c4B1.row_idx := by decide

theorem bestFold_min (s : MState) (amt tol : ℚ) :
    ∀ (l : List Nat) (acc : Option (Nat × ℚ)) (j : Nat) (d : ℚ),
      bestFold s amt tol l acc = some (j, d) →
      (∀ (k : Nat) (dk : ℚ), acc = some (k, dk) → d ≤ dk) ∧
      (∀ j' ∈ l, ∀ c' : Invoice, s.l2[j']? = some c' →
        c'.match_id = Option.none → |amt - c'.amount| ≤ tol →
        d ≤ |amt - c'.amount|) := by
  intro l
  induction l with
  | nil =>
    intro acc j d hres
    rw [bestFold] at hres
    constructor
    · intro k dk hacc
      rw [hacc, Option.some_inj] at hres
      cases hres
      exact le_refl _
    · intro j' hj'
      cases hj'
  | cons j0 rest ih =>
    intro acc j d hres
    rw [bestFold] at hres
    cases hj0 : s.l2[j0]? with
    | none =>
      rw [hj0] at hres
      simp only at hres
      obtain ⟨ha, hl⟩ := ih acc j d hres
      refine ⟨ha, ?_⟩
      intro j' hj' c' hc' hcu' hcd'
      cases hj' with
      | head => rw [hj0] at hc'; cases hc'
      | tail _ hmem => exact hl j' hmem c' hc' hcu' hcd'
    | some c0 =>
      rw [hj0] at hres
      simp only at hres
      by_cases hcl : c0.match_id.isSome
      · rw [if_pos hcl] at hres
        obtain ⟨ha, hl⟩ := ih acc j d hres
        refine ⟨ha, ?_⟩
        intro j' hj' c' hc' hcu' hcd'
        cases hj' with
        | head =>
          rw [hj0, Option.some_inj] at hc'
          rw [hc'] at hcl
          rw [hcu'] at hcl
          cases hcl
        | tail _ hmem => exact hl j' hmem c' hc' hcu' hcd'
      · rw [if_neg hcl] at hres
        cases hacc0 : acc with
        | none =>
          rw [hacc0] at hres
          simp only at hres
          by_cases hd0 : |amt - c0.amount| ≤ tol
          · rw [if_pos hd0] at hres
            obtain ⟨ha, hl⟩ := ih _ j d hres
            have hdd0 : d ≤ |amt - c0.amount| := ha j0 _ rfl
            refine ⟨?_, ?_⟩
            · intro k dk h
              cases h
            · intro j' hj' c' hc' hcu' hcd'
              cases hj' with
              | head =>
                rw [hj0, Option.some_inj] at hc'
                rw [← hc']
                exact hdd0
              | tail _ hmem => exact hl j' hmem c' hc' hcu' hcd'
          · rw [if_neg hd0] at hres
            obtain ⟨ha, hl⟩ := ih _ j d hres
            refine ⟨?_, ?_⟩
            · intro k dk h
              cases h
            · intro j' hj' c' hc' hcu' hcd'
              cases hj' with
              | head =>
                rw [hj0, Option.some_inj] at hc'
                rw [← hc'] at hcd'
                exact absurd hcd' hd0
              | tail _ hmem => exact hl j' hmem c' hc' hcu' hcd'
        | some kd =>
          obtain ⟨k0, dk0⟩ := kd
          rw [hacc0] at hres
          simp only at hres
          by_cases hd0 : |amt - c0.amount| ≤ tol ∧ |amt - c0.amount| < dk0
          · rw [if_pos hd0] at hres
            obtain ⟨ha, hl⟩ := ih _ j d hres
            have hdd0 : d ≤ |amt - c0.amount| := ha j0 _ rfl
            refine ⟨?_, ?_⟩
            · intro k dk h
              rw [Option.some_inj] at h
              cases h
              exact le_of_lt (lt_of_le_of_lt hdd0 hd0.2)
            · intro j' hj' c' hc' hcu' hcd'
              cases hj' with
              | head =>
                rw [hj0, Option.some_inj] at hc'
                rw [← hc']
                exact hdd0
              | tail _ hmem => exact hl j' hmem c' hc' hcu' hcd'
          · rw [if_neg hd0] at hres
            obtain ⟨ha, hl⟩ := ih _ j d hres
            have hddk : d ≤ dk0 := ha k0 dk0 rfl
            refine ⟨?_, ?_⟩
            · intro k dk h
              rw [Option.some_inj] at h
              cases h
              exact hddk
            · intro j' hj' c' hc' hcu' hcd'
              cases hj' with
              | head =>
                rw [hj0, Option.some_inj] at hc'
                rw [← hc'] at hcd' ⊢
                have : ¬ |amt - c0.amount| < dk0 := fun hlt => hd0 ⟨hcd', hlt⟩
                exact le_trans hddk (le_of_not_lt this)
              | tail _ hmem => exact hl j' hmem c' hc' hcu' hcd'

theorem bestFold_strict (s : MState) (amt tol : ℚ) :
    ∀ (l : List Nat) (k : Nat) (dk : ℚ) (j : Nat) (d : ℚ),
      bestFold s amt tol l (some (k, dk)) = some (j, d) → j ≠ k → d < dk := by
  intro l
  induction l with
  | nil =>
    intro k dk j d hres hne
    rw [bestFold, Option.some_inj] at hres
    cases hres
    exact absurd rfl hne
  | cons j0 rest ih =>
    intro k dk j d hres hne
    rw [bestFold] at hres
    cases hj0 : s.l2[j0]? with
    | none =>
      rw [hj0] at hres
      simp only at hres
      exact ih k dk j d hres hne
    | some c0 =>
      rw [hj0] at hres
      simp only at hres
      by_cases hcl : c0.match_id.isSome
      · rw [if_pos hcl] at hres
        exact ih k dk j d hres hne
      · rw [if_neg hcl] at hres
        by_cases hd0 : |amt - c0.amount| ≤ tol ∧ |amt - c0.amount| < dk
        · rw [if_pos hd0] at hres
          by_cases hjj : j = j0
          · subst hjj
            have := (bestFold_min s amt tol rest _ j d hres).1 j _ rfl
            exact lt_of_le_of_lt this hd0.2
          · exact lt_trans (ih j0 _ j d hres hjj) hd0.2
        · rw [if_neg hd0] at hres
          exact ih k dk j d hres hne

theorem bestFold_first (s : MState) (amt tol : ℚ) (j : Nat) (d : ℚ) :
    ∀ (pre : List Nat) (j1 : Nat) (post : List Nat) (acc : Option (Nat × ℚ))
      (c : Invoice),
      s.l2[j1]? = some c → c.match_id = Option.none → |amt - c.amount| ≤ tol →
      j ∈ post → j ∉ pre → j ≠ j1 →
      (acc = Option.none ∨ ∃ (k : Nat) (dk : ℚ), acc = some (k, dk) ∧ k ≠ j) →
      bestFold s amt tol (pre ++ j1 :: post) acc = some (j, d) →
      d < |amt - c.amount| := by
  intro pre
  induction pre with
  | nil =>
    intro j1 post acc c hc hcu hcd hjpost _ hjne hacc hres
    rw [List.nil_append, bestFold, hc] at hres
    simp only at hres
    have hcl : ¬ c.match_id.isSome = true := by
      rw [hcu]
      simp
    rw [if_neg hcl] at hres
    cases hacc with
    | inl hnone =>
      rw [hnone] at hres
      simp only at hres
      rw [if_pos hcd] at hres
      exact bestFold_strict s amt tol post j1 _ j d hres hjne
    | inr hsome =>
      obtain ⟨k, dk, hkdk, hkj⟩ := hsome
      rw [hkdk] at hres
      simp only at hres
      by_cases hcond : |amt - c.amount| ≤ tol ∧ |amt - c.amount| < dk
      · rw [if_pos hcond] at hres
        exact bestFold_strict s amt tol post j1 _ j d hres hjne
      · rw [if_neg hcond] at hres
        have hdk : d < dk :=
          bestFold_strict s amt tol post k dk j d hres (Ne.symm hkj)
        have hdkle : dk ≤ |amt - c.amount| :=
          le_of_not_lt (fun hlt => hcond ⟨hcd, hlt⟩)
        exact lt_of_lt_of_le hdk hdkle
  | cons p pre' ih =>
    intro j1 post acc c hc hcu hcd hjpost hjpre hjne hacc hres
    have hjp : j ≠ p := fun h => hjpre (h ▸ List.mem_cons_self p pre')
    have hjpre' : j ∉ pre' := fun h => hjpre (List.mem_cons_of_mem p h)
    rw [List.cons_append, bestFold] at hres
    cases hp : s.l2[p]? with
    | none =>
      rw [hp] at hres
      simp only at hres
      exact ih j1 post acc c hc hcu hcd hjpost hjpre' hjne hacc hres
    | some cp =>
      rw [hp] at hres
      simp only at hres
      by_cases hcl : cp.match_id.isSome
      · rw [if_pos hcl] at hres
        exact ih j1 post acc c hc hcu hcd hjpost hjpre' hjne hacc hres
      · rw [if_neg hcl] at hres
        cases hacc0 : acc with
        | none =>
          rw [hacc0] at hres
          simp only at hres
          by_cases hdp : |amt - cp.amount| ≤ tol
          · rw [if_pos hdp] at hres
            exact ih j1 post _ c hc hcu hcd hjpost hjpre' hjne
              (Or.inr ⟨p, _, rfl, fun h => hjp h.symm⟩) hres
          · rw [if_neg hdp] at hres
            exact ih j1 post _ c hc hcu hcd hjpost hjpre' hjne (Or.inl rfl) hres
        | some kd =>
          obtain ⟨k, dk⟩ := kd
          obtain ⟨k1, dk1, hkdk, hkj⟩ := hacc.resolve_left (by rw [hacc0]; intro h; cases h)
          rw [hacc0] at hkdk
          rw [Option.some_inj] at hkdk
          cases hkdk
          rw [hacc0] at hres
          simp only at hres
          by_cases hdp : |amt - cp.amount| ≤ tol ∧ |amt - cp.amount| < dk
          · rw [if_pos hdp] at hres
            exact ih j1 post _ c hc hcu hcd hjpost hjpre' hjne
              (Or.inr ⟨p, _, rfl, fun h => hjp h.symm⟩) hres
          · rw [if_neg hdp] at hres
            exact ih j1 post _ c hc hcu hcd hjpost hjpre' hjne
              (Or.inr ⟨k, dk, rfl, hkj⟩) hres

/-- C4 amended: the tie-break stability holds for the linear candidate scan
shared by phases 1, 2A and 2B (`bestFold` over the phase's candidate list,
which lists indices in list-2 row order): the chosen candidate minimizes the
absolute amount difference over all qualifying candidates, and every
qualifying candidate strictly earlier in scan order has a strictly larger
difference - so on a tie the earlier candidate wins.  Phase 3 does not obey
this rule: its outward scan breaks ties towards the right-hand side of the
insertion point regardless of row order (see the counterexample). -/
theorem c4_amended_tie_break (s : MState) (amt tol : ℚ) (cands : List Nat)
    (j : Nat) (d : ℚ)
    (hres : bestFold s amt tol cands Option.none = some (j, d)) :
    (∀ j' ∈ cands, ∀ c' : Invoice, s.l2[j']? = some c' →
      c'.match_id = Option.none → |amt - c'.amount| ≤ tol →
      d ≤ |amt - c'.amount|) ∧
    (cands.Nodup → ∀ (k1 k2 : Nat), k1 < k2 → cands[k2]? = some j →
      ∀ (j1 : Nat) (c : Invoice), cands[k1]? = some j1 →
      s.l2[j1]? = some c → c.match_id = Option.none →
      |amt - c.amount| ≤ tol → d < |amt - c.amount|) := by
  constructor
  · exact (bestFold_min s amt tol cands Option.none j d hres).2
  · intro hnd k1 k2 h12 hk2 j1 c hk1 hc hcu hcd
    obtain ⟨hk1lt, hk1e⟩ := List.getElem?_eq_some.mp hk1
    obtain ⟨hk2lt, hk2e⟩ := List.getElem?_eq_some.mp hk2
    have hdropeq : cands.drop k1 = j1 :: cands.drop (k1 + 1) := by
      rw [List.drop_eq_getElem_cons hk1lt, hk1e]
    have hsplit : cands.take k1 ++ j1 :: cands.drop (k1 + 1) = cands := by
      rw [← hdropeq, List.take_append_drop]
    have hjpost : j ∈ cands.drop (k1 + 1) := by
      rw [List.mem_iff_getElem?]
      refine ⟨k2 - (k1 + 1), ?_⟩
      rw [List.getElem?_drop]
      have harith : k1 + 1 + (k2 - (k1 + 1)) = k2 := by omega
      rw [harith]
      exact hk2
    have hne_idx : ∀ n : Nat, n < k2 → cands[n]? = some j → False := by
      intro n hn hcn
      obtain ⟨hnlt, hne⟩ := List.getElem?_eq_some.mp hcn
      have hpw := List.pairwise_iff_getElem.mp hnd n k2 hnlt hk2lt hn
      rw [hne, hk2e] at hpw
      exact hpw rfl
    have hjne : j ≠ j1 := by
      intro h
      exact hne_idx k1 h12 (by rw [hk1, h])
    have hjpre : j ∉ cands.take k1 := by
      intro hmem
      rw [List.mem_iff_getElem?] at hmem
      obtain ⟨n, hn⟩ := hmem
      rw [List.getElem?_take] at hn
      by_cases hlt : n < k1
      · rw [if_pos hlt] at hn
        exact hne_idx n (by omega) hn
      · rw [if_neg hlt] at hn
        cases hn
    exact bestFold_first s amt tol j d (cands.take k1) j1 (cands.drop (k1 + 1))
      Option.none c hc hcu hcd hjpost hjpre hjne (Or.inl rfl)
      (by rw [hsplit]; exact hres)

/-- Candidate with the larger difference (row 2) for the C4 amended
witness. -/
def c4W1 : Invoice :=
  { row_idx := 2, gstin := "", igst := 99, cgst := 0, sgst := 0,
    party := "", head := "IGST", amount := 99, source := "S2",
    match_id := Option.none, match_type := Option.none,
    matched_with_row := Option.none }

/-- Candidate with the smaller difference (row 3) for the C4 amended
witness. -/
def c4W2 : Invoice :=
  { c4W1 with row_idx := 3, igst := 100.5, amount := 100.5 }

/-- Scan state for the C4 amended witness. -/
def c4WState : MState := { l1 := [], l2 := [c4W1, c4W2], counter := 1 }

theorem c4_amended_tie_break_witness : (1/2 : ℚ) < |100 - c4W1.amount| :=
  (c4_amended_tie_break c4WState 100 1 [0, 1] 1 (1/2) (by decide)).2
    (by decide) 0 1 (by decide) (by decide) 0 c4W1 (by decide) (by decide)
    (by decide) (by decide)

/-!  ## Claim C5: the phase 3 search machinery -/

theorem core_eq_fields (a b : Invoice) (h : a.core = b.core) :
    a.row_idx = b.row_idx ∧ a.gstin = b.gstin ∧ a.head = b.head ∧
    a.amount = b.amount := by
  simp only [Invoice.core, Prod.mk.injEq] at h
  exact ⟨h.1, h.2.1, h.2.2.2.2.2.2.1, h.2.2.2.2.2.2.2.1⟩

theorem steps_amount (s0 cur : MState) (hst : Steps s0 cur) (j : Nat) :
    amountAt cur j = amountAt s0 j := by
  unfold amountAt
  have hcore := hst.core2 j
  cases h0 : s0.l2[j]? with
  | none =>
    rw [h0] at hcore
    simp only [Option.map_none'] at hcore
    rw [Option.map_eq_none'] at hcore
    rw [hcore]
  | some c0 =>
    rw [h0] at hcore
    cases hc : cur.l2[j]? with
    | none =>
      rw [hc] at hcore
      simp at hcore
    | some c =>
      rw [hc] at hcore
      simp only [Option.map_some', Option.some_inj] at hcore
      exact (core_eq_fields c c0 hcore).2.2.2

theorem cands3_mem (s0 : MState) (h : String) (j : Nat) :
    j ∈ cands3 s0 h ↔
      ∃ c, s0.l2[j]? = some c ∧ c.match_id = Option.none ∧ c.head = h := by
  unfold cands3
  rw [(List.perm_insertionSort _ _).mem_iff, List.mem_filter]
  constructor
  · intro ⟨_, hf⟩
    cases hj : s0.l2[j]? with
    | none => rw [hj] at hf; cases hf
    | some c =>
      rw [hj] at hf
      simp only [Bool.and_eq_true, Option.isNone_iff_eq_none, beq_iff_eq] at hf
      exact ⟨c, rfl, hf.1, hf.2⟩
  · intro ⟨c, hc, hcu, chh⟩
    refine ⟨List.mem_range.mpr (List.getElem?_eq_some.mp hc).1, ?_⟩
    rw [hc]
    simp only [Bool.and_eq_true, Option.isNone_iff_eq_none, beq_iff_eq]
    exact ⟨hcu, chh⟩

theorem cands3_sorted (s0 : MState) (h : String) :
    List.Sorted (· ≤ ·) ((cands3 s0 h).map (amountAt s0)) := by
  haveI ht : IsTotal Nat (fun a b => amountAt s0 a ≤ amountAt s0 b) :=
    ⟨fun a b => le_total _ _⟩
  haveI htr : IsTrans Nat (fun a b => amountAt s0 a ≤ amountAt s0 b) :=
    ⟨fun _ _ _ hab hbc => le_trans hab hbc⟩
  have hs := List.sorted_insertionSort
    (fun a b => amountAt s0 a ≤ amountAt s0 b)
    ((List.range s0.l2.length).filter (fun j =>
      match s0.l2[j]? with
      | some c => c.match_id.isNone && c.head == h
      | Option.none => false))
  unfold cands3
  exact (List.pairwise_map).mpr hs

theorem take_length_takeWhile {α : Type} (p : α → Bool) :
    ∀ l : List α, l.take (l.takeWhile p).length = l.takeWhile p := by
  intro l
  induction l with
  | nil => rfl
  | cons a t ih =>
    by_cases hp : p a
    · rw [List.takeWhile_cons_of_pos hp]
      simpa using ih
    · rw [List.takeWhile_cons_of_neg hp]
      rfl

theorem drop_length_takeWhile {α : Type} (p : α → Bool) :
    ∀ l : List α, l.drop (l.takeWhile p).length = l.dropWhile p := by
  intro l
  induction l with
  | nil => rfl
  | cons a t ih =>
    by_cases hp : p a
    · rw [List.takeWhile_cons_of_pos hp, List.dropWhile_cons_of_pos hp]
      simpa using ih
    · rw [List.takeWhile_cons_of_neg hp, List.dropWhile_cons_of_neg hp]
      rfl

theorem dropWhile_head_false {α : Type} (p : α → Bool) :
    ∀ (l : List α) (q : α) (t : List α), l.dropWhile p = q :: t →
      p q = false := by
  intro l
  induction l with
  | nil => intro q t h; cases h
  | cons a t0 ih =>
    intro q t h
    by_cases hp : p a
    · rw [List.dropWhile_cons_of_pos hp] at h
      exact ih q t h
    · rw [List.dropWhile_cons_of_neg hp] at h
      rw [List.cons.injEq] at h
      rw [← h.1]
      exact Bool.not_eq_true _ ▸ (by simpa using hp)

theorem scanBest_mem (s : MState) (amt tol : ℚ) :
    ∀ (l : List Nat) (acc : Option (Nat × ℚ)) (k : Nat) (d : ℚ),
      scanBest s amt tol l acc = some (k, d) → k ∈ l ∨ acc = some (k, d) := by
  intro l
  induction l with
  | nil =>
    intro acc k d h
    rw [scanBest] at h
    exact Or.inr h
  | cons j0 rest ih =>
    intro acc k d h
    rw [scanBest] at h
    cases hj0 : s.l2[j0]? with
    | none =>
      rw [hj0] at h
      simp only at h
      rcases ih acc k d h with hm | hacc
      · exact Or.inl (List.mem_cons_of_mem _ hm)
      · exact Or.inr hacc
    | some c0 =>
      rw [hj0] at h
      simp only at h
      by_cases hbrk : tol < |c0.amount - amt|
      · rw [if_pos hbrk] at h
        exact Or.inr h
      · rw [if_neg hbrk] at h
        by_cases hcl : c0.match_id.isSome
        · rw [if_pos hcl] at h
          rcases ih acc k d h with hm | hacc
          · exact Or.inl (List.mem_cons_of_mem _ hm)
          · exact Or.inr hacc
        · rw [if_neg hcl] at h
          cases hacc0 : acc with
          | none =>
            rw [hacc0] at h
            simp only at h
            rcases ih _ k d h with hm | hacc
            · exact Or.inl (List.mem_cons_of_mem _ hm)
            · rw [Option.some_inj] at hacc
              cases hacc
              exact Or.inl (List.mem_cons_self _ _)
          | some kd =>
            obtain ⟨k0, dk0⟩ := kd
            rw [hacc0] at h
            simp only at h
            by_cases hlt : |c0.amount - amt| < dk0
            · rw [if_pos hlt] at h
              rcases ih _ k d h with hm | hacc
              · exact Or.inl (List.mem_cons_of_mem _ hm)
              · rw [Option.some_inj] at hacc
                cases hacc
                exact Or.inl (List.mem_cons_self _ _)
            · rw [if_neg hlt] at h
              rcases ih _ k d h with hm | hacc
              · exact Or.inl (List.mem_cons_of_mem _ hm)
              · exact Or.inr hacc

theorem scanBest_acc_le (s : MState) (amt tol : ℚ) :
    ∀ (l : List Nat) (k : Nat) (dk : ℚ),
      ∃ (k' : Nat) (d' : ℚ),
        scanBest s amt tol l (some (k, dk)) = some (k', d') ∧ d' ≤ dk := by
  intro l
  induction l with
  | nil =>
    intro k dk
    exact ⟨k, dk, rfl, le_refl _⟩
  | cons j0 rest ih =>
    intro k dk
    rw [scanBest]
    cases hj0 : s.l2[j0]? with
    | none =>
      simp only
      exact ih k dk
    | some c0 =>
      simp only
      by_cases hbrk : tol < |c0.amount - amt|
      · rw [if_pos hbrk]
        exact ⟨k, dk, rfl, le_refl _⟩
      · rw [if_neg hbrk]
        by_cases hcl : c0.match_id.isSome
        · rw [if_pos hcl]
          exact ih k dk
        · rw [if_neg hcl]
          by_cases hlt : |c0.amount - amt| < dk
          · rw [if_pos hlt]
            obtain ⟨k', d', hres, hle⟩ := ih j0 |c0.amount - amt|
            exact ⟨k', d', hres, le_of_lt (lt_of_le_of_lt hle hlt)⟩
          · rw [if_neg hlt]
            exact ih k dk

theorem scanBest_complete (s : MState) (amt tol : ℚ) :
    ∀ (l : List Nat) (acc : Option (Nat × ℚ)),
      List.Pairwise
        (fun a b => |amountAt s a - amt| ≤ |amountAt s b - amt|) l →
      ∀ j' ∈ l, ∀ c' : Invoice, s.l2[j']? = some c' →
        c'.match_id = Option.none → |c'.amount - amt| ≤ tol →
        ∃ (k : Nat) (d : ℚ),
          scanBest s amt tol l acc = some (k, d) ∧ d ≤ |c'.amount - amt| := by
  intro l
  induction l with
  | nil =>
    intro acc _ j' hj'
    cases hj'
  | cons j0 rest ih =>
    intro acc hpw j' hj' c' hc' hcu' hcd'
    have hm0 := (List.pairwise_cons.mp hpw).1
    have hrest := (List.pairwise_cons.mp hpw).2
    rw [scanBest]
    cases hj0 : s.l2[j0]? with
    | none =>
      simp only
      cases hj' with
      | head =>
        rw [hj0] at hc'
        cases hc'
      | tail _ hmem => exact ih acc hrest j' hmem c' hc' hcu' hcd'
    | some c0 =>
      simp only
      by_cases hbrk : tol < |c0.amount - amt|
      · exfalso
        cases hj' with
        | head =>
          rw [hj0, Option.some_inj] at hc'
          rw [hc'] at hbrk
          exact absurd hcd' (not_le.mpr hbrk)
        | tail _ hmem =>
          have hmono := hm0 j' hmem
          have ha0 : amountAt s j0 = c0.amount := by
            unfold amountAt
            rw [hj0]
          have ha' : amountAt s j' = c'.amount := by
            unfold amountAt
            rw [hc']
          rw [ha0, ha'] at hmono
          exact absurd hcd' (not_le.mpr (lt_of_lt_of_le hbrk hmono))
      · rw [if_neg hbrk]
        by_cases hcl : c0.match_id.isSome
        · rw [if_pos hcl]
          cases hj' with
          | head =>
            rw [hj0, Option.some_inj] at hc'
            rw [hc', hcu'] at hcl
            cases hcl
          | tail _ hmem => exact ih acc hrest j' hmem c' hc' hcu' hcd'
        · rw [if_neg hcl]
          cases hacc0 : acc with
          | none =>
            simp only
            cases hj' with
            | head =>
              rw [hj0, Option.some_inj] at hc'
              obtain ⟨k, d, hres, hle⟩ := scanBest_acc_le s amt tol rest j0
                |c0.amount - amt|
              refine ⟨k, d, hres, ?_⟩
              rw [← hc']
              exact hle
            | tail _ hmem => exact ih _ hrest j' hmem c' hc' hcu' hcd'
          | some kd =>
            obtain ⟨k0, dk0⟩ := kd
            simp only
            by_cases hlt : |c0.amount - amt| < dk0
            · rw [if_pos hlt]
              cases hj' with
              | head =>
                rw [hj0, Option.some_inj] at hc'
                obtain ⟨k, d, hres, hle⟩ := scanBest_acc_le s amt tol rest j0
                  |c0.amount - amt|
                refine ⟨k, d, hres, ?_⟩
                rw [← hc']
                exact hle
              | tail _ hmem => exact ih _ hrest j' hmem c' hc' hcu' hcd'
            · rw [if_neg hlt]
              cases hj' with
              | head =>
                rw [hj0, Option.some_inj] at hc'
                obtain ⟨k, d, hres, hle⟩ := scanBest_acc_le s amt tol rest k0 dk0
                refine ⟨k, d, hres, ?_⟩
                rw [← hc']
                exact le_trans hle (le_of_not_lt hlt)
              | tail _ hmem => exact ih _ hrest j' hmem c' hc' hcu' hcd'

theorem take_bisect_left (l : List ℚ) (x : ℚ) :
    l.take (bisect_left l x) = l.takeWhile (fun a => a < x) := by
  unfold bisect_left
  exact take_length_takeWhile _ l

theorem drop_bisect_left (l : List ℚ) (x : ℚ) :
    l.drop (bisect_left l x) = l.dropWhile (fun a => a < x) := by
  unfold bisect_left
  exact drop_length_takeWhile _ l

theorem sorted_dropWhile_ge (l : List ℚ) (x : ℚ)
    (hs : List.Sorted (· ≤ ·) l) :
    ∀ q ∈ l.dropWhile (fun a => a < x), x ≤ q := by
  cases hdw : l.dropWhile (fun a => decide (a < x)) with
  | nil =>
    intro q hq
    cases hq
  | cons q0 t =>
    have hq0 : ¬ q0 < x := by
      have := dropWhile_head_false (fun a => decide (a < x)) l q0 t hdw
      simpa using this
    have hsd : List.Pairwise (· ≤ ·) (q0 :: t) := by
      rw [← hdw]
      exact hs.sublist (List.dropWhile_sublist _)
    intro q hq
    cases hq with
    | head => exact le_of_not_lt hq0
    | tail _ hmem =>
      exact le_trans (le_of_not_lt hq0)
        ((List.pairwise_cons.mp hsd).1 q hmem)

/-- C5: the bisect-based outward scan of phase 3, with its early
termination, misses no qualifying candidate.  For the list-1 record `x` at
index `i`, in any state `cur` reached from the phase 3 snapshot `s0` by
linking steps: the selection returns nothing only when no still-unclaimed
list-2 record with the same head lies within tolerance of `x.amount`, and a
returned candidate is an unclaimed same-head record within tolerance that
minimizes the absolute amount difference over all such candidates. -/
theorem c5_phase3_search (tol : ℚ) (s0 cur : MState) (hst : Steps s0 cur)
    (i : Nat) (x : Invoice) (hx : cur.l1[i]? = some x) :
    (sel3 tol s0 cur i = Option.none →
      ∀ (j : Nat) (y : Invoice), cur.l2[j]? = some y →
        y.match_id = Option.none → y.head = x.head →
        ¬ |y.amount - x.amount| ≤ tol) ∧
    (∀ j : Nat, sel3 tol s0 cur i = some j →
      ∃ y, cur.l2[j]? = some y ∧ y.match_id = Option.none ∧
        y.head = x.head ∧ |y.amount - x.amount| ≤ tol ∧
        ∀ (j' : Nat) (y' : Invoice), cur.l2[j']? = some y' →
          y'.match_id = Option.none → y'.head = x.head →
          |y'.amount - x.amount| ≤ tol →
          |y.amount - x.amount| ≤ |y'.amount - x.amount|) := by
  have hamt : ∀ j : Nat, amountAt cur j = amountAt s0 j := steps_amount s0 cur hst
  have hsorted := cands3_sorted s0 x.head
  have hpc : List.Pairwise (fun a b => amountAt s0 a ≤ amountAt s0 b)
      (cands3 s0 x.head) := (List.pairwise_map).mp hsorted
  have htake_lt : ∀ a ∈ (cands3 s0 x.head).take
      (bisect_left ((cands3 s0 x.head).map (amountAt s0)) x.amount),
      amountAt s0 a < x.amount := by
    intro a ha
    have hmm : amountAt s0 a ∈
        ((cands3 s0 x.head).map (amountAt s0)).take
          (bisect_left ((cands3 s0 x.head).map (amountAt s0)) x.amount) := by
      rw [← List.map_take (amountAt s0) (cands3 s0 x.head)]
      exact List.mem_map_of_mem _ ha
    rw [take_bisect_left] at hmm
    have hp := List.mem_takeWhile_imp hmm
    exact of_decide_eq_true hp
  have hdrop_ge : ∀ a ∈ (cands3 s0 x.head).drop
      (bisect_left ((cands3 s0 x.head).map (amountAt s0)) x.amount),
      x.amount ≤ amountAt s0 a := by
    intro a ha
    have hmm : amountAt s0 a ∈
        ((cands3 s0 x.head).map (amountAt s0)).drop
          (bisect_left ((cands3 s0 x.head).map (amountAt s0)) x.amount) := by
      rw [← List.map_drop (amountAt s0) (cands3 s0 x.head)]
      exact List.mem_map_of_mem _ ha
    rw [drop_bisect_left] at hmm
    exact sorted_dropWhile_ge _ x.amount hsorted _ hmm
  have hPdrop : List.Pairwise
      (fun a b => |amountAt cur a - x.amount| ≤ |amountAt cur b - x.amount|)
      ((cands3 s0 x.head).drop
        (bisect_left ((cands3 s0 x.head).map (amountAt s0)) x.amount)) := by
    refine List.Pairwise.imp_of_mem ?_ (hpc.sublist (List.drop_sublist _ _))
    intro a b ha hb hab
    rw [hamt a, hamt b,
      abs_of_nonneg (sub_nonneg.mpr (hdrop_ge a ha)),
      abs_of_nonneg (sub_nonneg.mpr (hdrop_ge b hb))]
    exact sub_le_sub_right hab _
  have hPtake : List.Pairwise
      (fun a b => |amountAt cur a - x.amount| ≤ |amountAt cur b - x.amount|)
      (((cands3 s0 x.head).take
        (bisect_left ((cands3 s0 x.head).map (amountAt s0)) x.amount)).reverse) := by
    rw [List.pairwise_reverse]
    refine List.Pairwise.imp_of_mem ?_ (hpc.sublist (List.take_sublist _ _))
    intro a b ha hb hab
    rw [hamt a, hamt b,
      abs_of_neg (sub_neg.mpr (htake_lt a ha)),
      abs_of_neg (sub_neg.mpr (htake_lt b hb))]
    simp only [neg_sub]
    exact sub_le_sub_left hab _
  have hqmem : ∀ (j' : Nat) (y' : Invoice), cur.l2[j']? = some y' →
      y'.match_id = Option.none → y'.head = x.head →
      j' ∈ cands3 s0 x.head := by
    intro j' y' hy' hyu' hyh'
    exact (cands3_mem s0 x.head j').mpr
      ⟨y', hst.back2 j' y' hy' hyu', hyu', hyh'⟩
  have hsplitm : ∀ j' ∈ cands3 s0 x.head,
      j' ∈ (cands3 s0 x.head).take
        (bisect_left ((cands3 s0 x.head).map (amountAt s0)) x.amount) ∨
      j' ∈ (cands3 s0 x.head).drop
        (bisect_left ((cands3 s0 x.head).map (amountAt s0)) x.amount) := by
    intro j' hj'
    rw [← List.take_append_drop
      (bisect_left ((cands3 s0 x.head).map (amountAt s0)) x.amount)
      (cands3 s0 x.head)] at hj'
    exact List.mem_append.mp hj'
  constructor
  · intro hnone j y hy hyu hyh hd
    unfold sel3 at hnone
    rw [hx] at hnone
    simp only [Option.map_eq_none'] at hnone
    have hd2 : |y.amount - x.amount| ≤ tol := hd
    have hjc := hqmem j y hy hyu hyh
    rcases hsplitm j hjc with hjt | hjd
    · obtain ⟨k, d, hres, -⟩ := scanBest_complete cur x.amount tol
        (((cands3 s0 x.head).take
          (bisect_left ((cands3 s0 x.head).map (amountAt s0)) x.amount)).reverse)
        (scanBest cur x.amount tol
          ((cands3 s0 x.head).drop
            (bisect_left ((cands3 s0 x.head).map (amountAt s0)) x.amount))
          Option.none)
        hPtake j (List.mem_reverse.mpr hjt) y hy hyu hd2
      rw [hres] at hnone
      cases hnone
    · obtain ⟨k1, d1, hres1, -⟩ := scanBest_complete cur x.amount tol
        ((cands3 s0 x.head).drop
          (bisect_left ((cands3 s0 x.head).map (amountAt s0)) x.amount))
        Option.none hPdrop j hjd y hy hyu hd2
      obtain ⟨k2, d2, hres2, -⟩ := scanBest_acc_le cur x.amount tol
        (((cands3 s0 x.head).take
          (bisect_left ((cands3 s0 x.head).map (amountAt s0)) x.amount)).reverse)
        k1 d1
      rw [hres1, hres2] at hnone
      cases hnone
  · intro j hsel
    unfold sel3 at hsel
    rw [hx] at hsel
    simp only at hsel
    cases hbest : scanBest cur x.amount tol
        (((cands3 s0 x.head).take
          (bisect_left ((cands3 s0 x.head).map (amountAt s0)) x.amount)).reverse)
        (scanBest cur x.amount tol
          ((cands3 s0 x.head).drop
            (bisect_left ((cands3 s0 x.head).map (amountAt s0)) x.amount))
          Option.none) with
    | none =>
      rw [hbest] at hsel
      cases hsel
    | some kd =>
      obtain ⟨k, d⟩ := kd
      rw [hbest] at hsel
      simp only [Option.map_some', Option.some_inj] at hsel
      subst hsel
      have hsound : AccOk3 cur x.amount tol (some (k, d)) := by
        rw [← hbest]
        exact scanBest_accOk3 cur x.amount tol _ _
          (scanBest_accOk3 cur x.amount tol _ _ (accOk3_nil cur x.amount tol))
      obtain ⟨y, hy, hyu, hdval, hdtol⟩ := hsound k d rfl
      have hjmem : k ∈ cands3 s0 x.head := by
        rcases scanBest_mem cur x.amount tol _ _ k d hbest with hm | hacc
        · exact List.take_subset _ _ (List.mem_reverse.mp hm)
        · rcases scanBest_mem cur x.amount tol _ _ k d hacc with hm2 | habs
          · exact List.drop_subset _ _ hm2
          · cases habs
      have hyh : y.head = x.head := by
        obtain ⟨c, hc, -, hch⟩ := (cands3_mem s0 x.head k).mp hjmem
        have hy0 := hst.back2 k y hy hyu
        rw [hy0, Option.some_inj] at hc
        rw [← hc] at hch
        exact hch
      refine ⟨y, hy, hyu, hyh, by rw [hdval] at hdtol; exact hdtol, ?_⟩
      intro j' y' hy' hyu' hyh' hd'
      have hjc' := hqmem j' y' hy' hyu' hyh'
      have hconc : d ≤ |y'.amount - x.amount| := by
        rcases hsplitm j' hjc' with hjt | hjd
        · obtain ⟨k2, d2, hres2, hle2⟩ := scanBest_complete cur x.amount tol
            (((cands3 s0 x.head).take
              (bisect_left ((cands3 s0 x.head).map (amountAt s0)) x.amount)).reverse)
            (scanBest cur x.amount tol
              ((cands3 s0 x.head).drop
                (bisect_left ((cands3 s0 x.head).map (amountAt s0)) x.amount))
              Option.none)
            hPtake j' (List.mem_reverse.mpr hjt) y' hy' hyu' hd'
          rw [hbest, Option.some_inj] at hres2
          cases hres2
          exact hle2
        · obtain ⟨k1, d1, hres1, hle1⟩ := scanBest_complete cur x.amount tol
            ((cands3 s0 x.head).drop
              (bisect_left ((cands3 s0 x.head).map (amountAt s0)) x.amount))
            Option.none hPdrop j' hjd y' hy' hyu' hd'
          obtain ⟨k2, d2, hres2, hle2⟩ := scanBest_acc_le cur x.amount tol
            (((cands3 s0 x.head).take
              (bisect_left ((cands3 s0 x.head).map (amountAt s0)) x.amount)).reverse)
            k1 d1
          rw [hres1] at hbest
          rw [hbest, Option.some_inj] at hres2
          cases hres2
          exact le_trans hle2 hle1
      rw [← hdval]
      exact hconc

/-- List-1 record for the C5 witness. -/
def c5X : Invoice :=
  { row_idx := 2, gstin := "G1", igst := 100, cgst := 0, sgst := 0,
    party := "", head := "IGST", amount := 100, source := "S1",
    match_id := Option.none, match_type := Option.none,
    matched_with_row := Option.none }

/-- List-2 record for the C5 witness. -/
def c5Y : Invoice :=
  { c5X with gstin := "G2", igst := 100.5, amount := 100.5, source := "S2" }

/-- Phase-3 state for the C5 witness. -/
def c5S : MState := { l1 := [c5X], l2 := [c5Y], counter := 1 }

theorem c5_phase3_search_witness :
    ∃ y, c5S.l2[0]? = some y ∧ y.match_id = Option.none ∧
      y.head = c5X.head ∧ |y.amount - c5X.amount| ≤ 1 ∧
      ∀ (j' : Nat) (y' : Invoice), c5S.l2[j']? = some y' →
        y'.match_id = Option.none → y'.head = c5X.head →
        |y'.amount - c5X.amount| ≤ 1 →
        |y.amount - c5X.amount| ≤ |y'.amount - c5X.amount| :=
  (c5_phase3_search 1 c5S c5S Steps.refl 0 c5X (by decide)).2 0 (by decide)

/-!  ## Claim C10: phase-level exhaustiveness -/

theorem bestFold_some_of_acc (s : MState) (amt tol : ℚ) :
    ∀ (l : List Nat) (k : Nat) (dk : ℚ),
      ∃ (k' : Nat) (d' : ℚ),
        bestFold s amt tol l (some (k, dk)) = some (k', d') := by
  intro l
  induction l with
  | nil =>
    intro k dk
    exact ⟨k, dk, rfl⟩
  | cons j0 rest ih =>
    intro k dk
    rw [bestFold]
    cases hj0 : s.l2[j0]? with
    | none =>
      simp only
      exact ih k dk
    | some c0 =>
      simp only
      by_cases hcl : c0.match_id.isSome
      · rw [if_pos hcl]
        exact ih k dk
      · rw [if_neg hcl]
        by_cases hd0 : |amt - c0.amount| ≤ tol ∧ |amt - c0.amount| < dk
        · rw [if_pos hd0]
          exact ih j0 _
        · rw [if_neg hd0]
          exact ih k dk

theorem bestFold_none_complete (s : MState) (amt tol : ℚ) :
    ∀ l : List Nat, bestFold s amt tol l Option.none = Option.none →
      ∀ j ∈ l, ∀ c : Invoice, s.l2[j]? = some c →
        c.match_id = Option.none → ¬ |amt - c.amount| ≤ tol := by
  intro l
  induction l with
  | nil =>
    intro _ j hj
    cases hj
  | cons j0 rest ih =>
    intro hres j hj c hc hcu hd
    rw [bestFold] at hres
    cases hj0 : s.l2[j0]? with
    | none =>
      rw [hj0] at hres
      simp only at hres
      cases hj with
      | head => rw [hj0] at hc; cases hc
      | tail _ hmem => exact ih hres j hmem c hc hcu hd
    | some c0 =>
      rw [hj0] at hres
      simp only at hres
      by_cases hcl : c0.match_id.isSome
      · rw [if_pos hcl] at hres
        cases hj with
        | head =>
          rw [hj0, Option.some_inj] at hc
          rw [hc, hcu] at hcl
          cases hcl
        | tail _ hmem => exact ih hres j hmem c hc hcu hd
      · rw [if_neg hcl] at hres
        by_cases hd0 : |amt - c0.amount| ≤ tol
        · rw [if_pos hd0] at hres
          obtain ⟨k', d', hsome⟩ := bestFold_some_of_acc s amt tol rest j0
            |amt - c0.amount|
          rw [hsome] at hres
          cases hres
        · rw [if_neg hd0] at hres
          cases hj with
          | head =>
            rw [hj0, Option.some_inj] at hc
            rw [hc] at hd0
            exact hd0 hd
          | tail _ hmem => exact ih hres j hmem c hc hcu hd

theorem sel1_complete (tol : ℚ) (s0 cur : MState) (hst : Steps s0 cur)
    (i : Nat) (x : Invoice) (hx : cur.l1[i]? = some x)
    (hnone : sel1 tol s0 cur i = Option.none) :
    ∀ (j : Nat) (y : Invoice), cur.l2[j]? = some y →
      y.match_id = Option.none →
      ¬ (y.gstin = x.gstin ∧ y.head = x.head ∧ |x.amount - y.amount| ≤ tol) := by
  intro j y hy hyu hq
  unfold sel1 at hnone
  rw [hx] at hnone
  simp only [Option.map_eq_none'] at hnone
  have hy0 := hst.back2 j y hy hyu
  have hjmem : j ∈ cands1 s0 x := by
    unfold cands1
    rw [List.mem_filter]
    refine ⟨List.mem_range.mpr (List.getElem?_eq_some.mp hy0).1, ?_⟩
    rw [hy0]
    simp only [Bool.and_eq_true, Option.isNone_iff_eq_none, beq_iff_eq]
    exact ⟨⟨hyu, hq.1⟩, hq.2.1⟩
  exact bestFold_none_complete cur x.amount tol _ hnone j hjmem y hy hyu hq.2.2

theorem sel2A_complete (tol : ℚ) (s0 cur : MState) (hst : Steps s0 cur)
    (i : Nat) (x : Invoice) (hx : cur.l1[i]? = some x) (hgx : x.gstin ≠ "")
    (hnone : sel2A tol s0 cur i = Option.none) :
    ∀ (j : Nat) (y : Invoice), cur.l2[j]? = some y →
      y.match_id = Option.none →
      ¬ (y.gstin = "" ∧ y.head = x.head ∧ |x.amount - y.amount| ≤ tol) := by
  intro j y hy hyu hq
  unfold sel2A at hnone
  rw [hx] at hnone
  simp only [if_neg hgx, Option.map_eq_none'] at hnone
  have hy0 := hst.back2 j y hy hyu
  have hjmem : j ∈ cands2A s0 x.head := by
    unfold cands2A
    rw [List.mem_filter]
    refine ⟨List.mem_range.mpr (List.getElem?_eq_some.mp hy0).1, ?_⟩
    rw [hy0]
    simp only [Bool.and_eq_true, Option.isNone_iff_eq_none, beq_iff_eq]
    exact ⟨⟨hyu, hq.1⟩, hq.2.1⟩
  exact bestFold_none_complete cur x.amount tol _ hnone j hjmem y hy hyu hq.2.2

theorem sel2B_complete (tol : ℚ) (s0 cur : MState) (hst : Steps s0 cur)
    (i : Nat) (x : Invoice) (hx : cur.l1[i]? = some x) (hgx : x.gstin = "")
    (hnone : sel2B tol s0 cur i = Option.none) :
    ∀ (j : Nat) (y : Invoice), cur.l2[j]? = some y →
      y.match_id = Option.none →
      ¬ (y.gstin ≠ "" ∧ y.head = x.head ∧ |x.amount - y.amount| ≤ tol) := by
  intro j y hy hyu hq
  unfold sel2B at hnone
  rw [hx] at hnone
  simp only [if_pos hgx, Option.map_eq_none'] at hnone
  have hy0 := hst.back2 j y hy hyu
  have hjmem : j ∈ cands2B s0 x.head := by
    unfold cands2B
    rw [List.mem_filter]
    refine ⟨List.mem_range.mpr (List.getElem?_eq_some.mp hy0).1, ?_⟩
    rw [hy0]
    simp [hyu, hq.1, hq.2.1]
  exact bestFold_none_complete cur x.amount tol _ hnone j hjmem y hy hyu hq.2.2

theorem sel3_head (tol : ℚ) (s0 cur : MState) (hst : Steps s0 cur)
    (i j : Nat) (x : Invoice) (hx : cur.l1[i]? = some x)
    (hsel : sel3 tol s0 cur i = some j) (y : Invoice)
    (hy : cur.l2[j]? = some y) (hyu : y.match_id = Option.none) :
    y.head = x.head := by
  unfold sel3 at hsel
  rw [hx] at hsel
  simp only at hsel
  cases hbest : scanBest cur x.amount tol
      (((cands3 s0 x.head).take
        (bisect_left ((cands3 s0 x.head).map (amountAt s0)) x.amount)).reverse)
      (scanBest cur x.amount tol
        ((cands3 s0 x.head).drop
          (bisect_left ((cands3 s0 x.head).map (amountAt s0)) x.amount))
        Option.none) with
  | none =>
    rw [hbest] at hsel
    cases hsel
  | some kd =>
    obtain ⟨k, d⟩ := kd
    rw [hbest] at hsel
    simp only [Option.map_some', Option.some_inj] at hsel
    subst hsel
    have hjmem : k ∈ cands3 s0 x.head := by
      rcases scanBest_mem cur x.amount tol _ _ k d hbest with hm | hacc
      · exact List.take_subset _ _ (List.mem_reverse.mp hm)
      · rcases scanBest_mem cur x.amount tol _ _ k d hacc with hm2 | habs
        · exact List.drop_subset _ _ hm2
        · cases habs
    obtain ⟨c, hc, -, hch⟩ := (cands3_mem s0 x.head k).mp hjmem
    have hy0 := hst.back2 k y hy hyu
    rw [hy0, Option.some_inj] at hc
    rw [← hc] at hch
    exact hch

theorem runPass_exhaust (sel : MState → Nat → Option Nat)
    (ty : MState → Nat → Nat → String) (tol : ℚ) (hsel : SoundSel sel tol)
    (G : Invoice → Prop) (P : Invoice → Invoice → Prop) (s0 : MState)
    (hcomp : ∀ cur : MState, Steps s0 cur →
      ∀ (i : Nat) (x : Invoice), cur.l1[i]? = some x →
        x.match_id = Option.none → G x → sel cur i = Option.none →
        ∀ (j : Nat) (y : Invoice), cur.l2[j]? = some y →
          y.match_id = Option.none → ¬ P x y) :
    ∀ (i : Nat) (x : Invoice), (runPass sel ty s0).l1[i]? = some x →
      x.match_id = Option.none → G x →
      ∀ (j : Nat) (y : Invoice), (runPass sel ty s0).l2[j]? = some y →
        y.match_id = Option.none → ¬ P x y := by
  have haux : ∀ (L : List Nat) (s : MState), Steps s0 s →
      ∀ i ∈ L, ∀ x : Invoice, (L.foldl (passStep sel ty) s).l1[i]? = some x →
        x.match_id = Option.none → G x →
        ∀ (j : Nat) (y : Invoice),
          (L.foldl (passStep sel ty) s).l2[j]? = some y →
          y.match_id = Option.none → ¬ P x y := by
    intro L
    induction L with
    | nil =>
      intro s _ i hiL
      cases hiL
    | cons i0 L1 ih =>
      intro s hs0s i hiL x hx hxu hG j y hy hyu hP
      have hstep : Steps s (passStep sel ty s i0) :=
        passStep_steps sel ty tol hsel s i0
      have hrest : Steps (passStep sel ty s i0)
          (L1.foldl (passStep sel ty) (passStep sel ty s i0)) :=
        foldl_passStep_steps sel ty tol hsel L1 _
      have hfold : (i0 :: L1).foldl (passStep sel ty) s =
          L1.foldl (passStep sel ty) (passStep sel ty s i0) := rfl
      rw [hfold] at hx hy
      cases hiL with
      | tail _ hmem =>
        exact ih (passStep sel ty s i0) (hs0s.trans hstep) i hmem x hx hxu hG
          j y hy hyu hP
      | head =>
        have hx1 : (passStep sel ty s i0).l1[i0]? = some x :=
          hrest.back1 _ _ hx hxu
        have hxs : s.l1[i0]? = some x := hstep.back1 _ _ hx1 hxu
        have hselnone : sel s i0 = Option.none := by
          cases hsel0 : sel s i0 with
          | none => rfl
          | some j0 =>
            exfalso
            obtain ⟨y0, hy0, hy0u, -⟩ := hsel s i0 j0 x hxs hsel0
            have hs'eq : passStep sel ty s i0 =
                linkAt s i0 j0 (ty s i0 j0) := by
              unfold passStep
              rw [hxs]
              simp only [hxu, Option.isSome_none, Bool.false_eq_true,
                if_false]
              rw [hsel0]
            have hclaim : (linkAt s i0 j0 (ty s i0 j0)).l1[i0]? =
                some (claimInv x s.counter (ty s i0 j0) y0.row_idx) := by
              rw [linkAt_l1_get s i0 j0 _ x y0 hxs hy0, if_pos rfl]
            rw [hs'eq, hclaim, Option.some_inj] at hx1
            rw [← hx1] at hxu
            simp [claimInv] at hxu
        have hys1 : (passStep sel ty s i0).l2[j]? = some y :=
          hrest.back2 _ _ hy hyu
        have hys : s.l2[j]? = some y := hstep.back2 _ _ hys1 hyu
        exact hcomp s hs0s i0 x hxs hxu hG hselnone j y hys hyu hP
  intro i x hx hxu hG j y hy hyu hP
  have hiR : i ∈ List.range s0.l1.length := by
    rw [List.mem_range]
    have hc := (runPass_steps sel ty tol hsel s0).core1 i
    rw [hx] at hc
    cases h0 : s0.l1[i]? with
    | none =>
      rw [h0] at hc
      cases hc
    | some z => exact (List.getElem?_eq_some.mp h0).1
  exact haux (List.range s0.l1.length) s0 Steps.refl i hiR x hx hxu hG
    j y hy hyu hP

theorem phase1_exhaust (tol : ℚ) (s : MState) :
    ∀ (i : Nat) (x : Invoice), (phase1 tol s).l1[i]? = some x →
      x.match_id = Option.none →
      ∀ (j : Nat) (y : Invoice), (phase1 tol s).l2[j]? = some y →
        y.match_id = Option.none →
        ¬ (y.gstin = x.gstin ∧ y.head = x.head ∧
           |x.amount - y.amount| ≤ tol) := by
  intro i x hx hxu j y hy hyu
  exact runPass_exhaust (sel1 tol s) _ tol (sel1_sound tol s)
    (fun _ => True)
    (fun x y => y.gstin = x.gstin ∧ y.head = x.head ∧
      |x.amount - y.amount| ≤ tol) s
    (fun cur hst i1 x1 hx1 hxu1 _ hnone =>
      sel1_complete tol s cur hst i1 x1 hx1 hnone)
    i x hx hxu trivial j y hy hyu

theorem phase2A_exhaust (tol : ℚ) (name2 : String) (s : MState) :
    ∀ (i : Nat) (x : Invoice), (phase2A tol name2 s).l1[i]? = some x →
      x.match_id = Option.none → x.gstin ≠ "" →
      ∀ (j : Nat) (y : Invoice), (phase2A tol name2 s).l2[j]? = some y →
        y.match_id = Option.none →
        ¬ (y.gstin = "" ∧ y.head = x.head ∧ |x.amount - y.amount| ≤ tol) := by
  intro i x hx hxu hgx j y hy hyu
  exact runPass_exhaust (sel2A tol s) _ tol (sel2A_sound tol s)
    (fun v => v.gstin ≠ "")
    (fun x y => y.gstin = "" ∧ y.head = x.head ∧
      |x.amount - y.amount| ≤ tol) s
    (fun cur hst i1 x1 hx1 hxu1 hG hnone =>
      sel2A_complete tol s cur hst i1 x1 hx1 hG hnone)
    i x hx hxu hgx j y hy hyu

theorem phase2B_exhaust (tol : ℚ) (name1 : String) (s : MState) :
    ∀ (i : Nat) (x : Invoice), (phase2B tol name1 s).l1[i]? = some x →
      x.match_id = Option.none → x.gstin = "" →
      ∀ (j : Nat) (y : Invoice), (phase2B tol name1 s).l2[j]? = some y →
        y.match_id = Option.none →
        ¬ (y.gstin ≠ "" ∧ y.head = x.head ∧ |x.amount - y.amount| ≤ tol) := by
  intro i x hx hxu hgx j y hy hyu
  exact runPass_exhaust (sel2B tol s) _ tol (sel2B_sound tol s)
    (fun v => v.gstin = "")
    (fun x y => y.gstin ≠ "" ∧ y.head = x.head ∧
      |x.amount - y.amount| ≤ tol) s
    (fun cur hst i1 x1 hx1 hxu1 hG hnone =>
      sel2B_complete tol s cur hst i1 x1 hx1 hG hnone)
    i x hx hxu hgx j y hy hyu

/-- The GSTIN shape of every phase-3 pair: both absent, or both present and
different. -/
def GstOk (x y : Invoice) : Prop :=
  (x.gstin = "" ∧ y.gstin = "") ∨
  (x.gstin ≠ "" ∧ y.gstin ≠ "" ∧ x.gstin ≠ y.gstin)

/-- All pairs whose match id is at least the phase-3 starting counter (the
pairs formed by phase 3) satisfy the GSTIN shape and the tag rule. -/
def NewPairs (s3 cur : MState) : Prop :=
  ∀ (i j : Nat) (x y : Invoice) (m : Nat), cur.l1[i]? = some x →
    cur.l2[j]? = some y → x.match_id = some m → y.match_id = some m →
    s3.counter ≤ m →
    GstOk x y ∧ x.match_type = y.match_type ∧
    (x.match_type = some "Match (No GSTINs)" → x.gstin = "" ∧ y.gstin = "")

theorem passStep3_new_pairs (tol : ℚ) (s3 cur : MState) (i0 : Nat)
    (hinv : InvOK tol cur) (hst : Steps s3 cur)
    (hEx1 : ∀ (i : Nat) (x : Invoice), s3.l1[i]? = some x →
      x.match_id = Option.none →
      ∀ (j : Nat) (y : Invoice), s3.l2[j]? = some y →
        y.match_id = Option.none →
        ¬ (y.gstin = x.gstin ∧ y.head = x.head ∧ |x.amount - y.amount| ≤ tol))
    (hEx2A : ∀ (i : Nat) (x : Invoice), s3.l1[i]? = some x →
      x.match_id = Option.none → x.gstin ≠ "" →
      ∀ (j : Nat) (y : Invoice), s3.l2[j]? = some y →
        y.match_id = Option.none →
        ¬ (y.gstin = "" ∧ y.head = x.head ∧ |x.amount - y.amount| ≤ tol))
    (hEx2B : ∀ (i : Nat) (x : Invoice), s3.l1[i]? = some x →
      x.match_id = Option.none → x.gstin = "" →
      ∀ (j : Nat) (y : Invoice), s3.l2[j]? = some y →
        y.match_id = Option.none →
        ¬ (y.gstin ≠ "" ∧ y.head = x.head ∧ |x.amount - y.amount| ≤ tol))
    (hnp : NewPairs s3 cur) :
    NewPairs s3 (passStep (sel3 tol s3) ty3 cur i0) := by
  unfold passStep
  cases hx0 : cur.l1[i0]? with
  | none => exact hnp
  | some x0 =>
    by_cases hcl : x0.match_id.isSome
    · simp only [hcl, if_true]
      exact hnp
    · simp only [hcl, Bool.false_eq_true, if_false]
      cases hsel : sel3 tol s3 cur i0 with
      | none =>
        simp only
        exact hnp
      | some j0 =>
        simp only
        have hx0u : x0.match_id = Option.none :=
          Option.not_isSome_iff_eq_none.mp hcl
        obtain ⟨y0, hy0, hy0u, hd0⟩ := sel3_sound tol s3 cur i0 j0 x0 hx0 hsel
        have hhd : y0.head = x0.head :=
          sel3_head tol s3 cur hst i0 j0 x0 hx0 hsel y0 hy0 hy0u
        have hx0s3 : s3.l1[i0]? = some x0 := hst.back1 i0 x0 hx0 hx0u
        have hy0s3 : s3.l2[j0]? = some y0 := hst.back2 j0 y0 hy0 hy0u
        have hne : y0.gstin ≠ x0.gstin := by
          intro heq
          exact hEx1 i0 x0 hx0s3 hx0u j0 y0 hy0s3 hy0u ⟨heq, hhd, hd0⟩
        have hgst : GstOk x0 y0 := by
          by_cases hxg : x0.gstin = ""
          · by_cases hyg : y0.gstin = ""
            · exact Or.inl ⟨hxg, hyg⟩
            · exact absurd ⟨hyg, hhd, hd0⟩
                (hEx2B i0 x0 hx0s3 hx0u hxg j0 y0 hy0s3 hy0u)
          · by_cases hyg : y0.gstin = ""
            · exact absurd ⟨hyg, hhd, hd0⟩
                (hEx2A i0 x0 hx0s3 hx0u hxg j0 y0 hy0s3 hy0u)
            · exact Or.inr ⟨hxg, hyg, fun h => hne h.symm⟩
        have hg1 := linkAt_l1_get cur i0 j0 (ty3 cur i0 j0) x0 y0 hx0 hy0
        have hg2 := linkAt_l2_get cur i0 j0 (ty3 cur i0 j0) x0 y0 hx0 hy0
        intro i j x y m hx hy hmx hmy hge
        rw [hg1 i] at hx
        rw [hg2 j] at hy
        by_cases hii : i0 = i <;> by_cases hjj : j0 = j
        · rw [if_pos hii, Option.some_inj] at hx
          rw [if_pos hjj, Option.some_inj] at hy
          subst hx
          subst hy
          refine ⟨hgst, rfl, ?_⟩
          intro htag
          have hty : ty3 cur i0 j0 = "Match (No GSTINs)" := by
            simpa [claimInv] using htag
          cases hgst with
          | inl hboth => exact hboth
          | inr hne3 =>
            exfalso
            unfold ty3 at hty
            rw [hx0, hy0] at hty
            simp only at hty
            rw [if_pos ⟨hne3.1, hne3.2.1, hne3.2.2⟩] at hty
            exact absurd hty (by decide)
        · rw [if_pos hii, Option.some_inj] at hx
          rw [if_neg hjj] at hy
          subst hx
          have hm : cur.counter = m := by
            simpa [claimInv] using hmx
          have := (hinv.bound2 j y m hy hmy).2
          omega
        · rw [if_neg hii] at hx
          rw [if_pos hjj, Option.some_inj] at hy
          subst hy
          have hm : cur.counter = m := by
            simpa [claimInv] using hmy
          have := (hinv.bound1 i x m hx hmx).2
          omega
        · rw [if_neg hii] at hx
          rw [if_neg hjj] at hy
          exact hnp i j x y m hx hy hmx hmy hge

theorem phase3_new_pairs (tol : ℚ) (s3 : MState) (hinv : InvOK tol s3)
    (hEx1 : ∀ (i : Nat) (x : Invoice), s3.l1[i]? = some x →
      x.match_id = Option.none →
      ∀ (j : Nat) (y : Invoice), s3.l2[j]? = some y →
        y.match_id = Option.none →
        ¬ (y.gstin = x.gstin ∧ y.head = x.head ∧ |x.amount - y.amount| ≤ tol))
    (hEx2A : ∀ (i : Nat) (x : Invoice), s3.l1[i]? = some x →
      x.match_id = Option.none → x.gstin ≠ "" →
      ∀ (j : Nat) (y : Invoice), s3.l2[j]? = some y →
        y.match_id = Option.none →
        ¬ (y.gstin = "" ∧ y.head = x.head ∧ |x.amount - y.amount| ≤ tol))
    (hEx2B : ∀ (i : Nat) (x : Invoice), s3.l1[i]? = some x →
      x.match_id = Option.none → x.gstin = "" →
      ∀ (j : Nat) (y : Invoice), s3.l2[j]? = some y →
        y.match_id = Option.none →
        ¬ (y.gstin ≠ "" ∧ y.head = x.head ∧ |x.amount - y.amount| ≤ tol)) :
    NewPairs s3 (phase3 tol s3) := by
  have haux : ∀ (L : List Nat) (cur : MState), InvOK tol cur →
      Steps s3 cur → NewPairs s3 cur →
      NewPairs s3 (L.foldl (passStep (sel3 tol s3) ty3) cur) := by
    intro L
    induction L with
    | nil =>
      intro cur _ _ hnp
      exact hnp
    | cons i0 L1 ih =>
      intro cur hinvc hstc hnpc
      exact ih _ (passStep_invOK _ _ tol (sel3_sound tol s3) cur i0 hinvc)
        (hstc.trans (passStep_steps _ _ tol (sel3_sound tol s3) cur i0))
        (passStep3_new_pairs tol s3 cur i0 hinvc hstc hEx1 hEx2A hEx2B hnpc)
  have hbase : NewPairs s3 s3 := by
    intro i j x y m hx hy hmx hmy hge
    have := (hinv.bound1 i x m hx hmx).2
    omega
  exact haux (List.range s3.l1.length) s3 hinv Steps.refl hbase

/-- C10: every pair matched in phase 3 (match id at or above the phase 3
starting counter) has either both GSTINs empty or both non-empty and
unequal - phase 3 never pairs a record having a GSTIN with one lacking it,
and never pairs two records with the same non-empty GSTIN (phases 1 and 2
would have consumed such pairs); consequently the "Match (No GSTINs)" tag is
assigned only when both sides' GSTINs are empty. -/
theorem c10_phase3_gstin (list1 list2 : List Invoice) (tol : ℚ)
    (n1 n2 : String) (h1 : Fresh list1) (h2 : Fresh list2) :
    ∀ (i j : Nat) (x y : Invoice) (m : Nat),
      (match_invoices list1 list2 tol n1 n2).l1[i]? = some x →
      (match_invoices list1 list2 tol n1 n2).l2[j]? = some y →
      x.match_id = some m → y.match_id = some m →
      (phase2B tol n1 (phase2A tol n2 (phase1 tol
        (initState list1 list2)))).counter ≤ m →
      GstOk x y ∧
      (x.match_type = some "Match (No GSTINs)" →
        x.gstin = "" ∧ y.gstin = "") := by
  intro i j x y m hx hy hmx hmy hge
  have hinv0 := initState_invOK tol list1 list2 h1 h2
  have hinv1 : InvOK tol (phase1 tol (initState list1 list2)) :=
    runPass_invOK _ _ tol (sel1_sound tol _) _ hinv0
  have hinv2 : InvOK tol (phase2A tol n2 (phase1 tol (initState list1 list2))) :=
    runPass_invOK _ _ tol (sel2A_sound tol _) _ hinv1
  have hinv3 : InvOK tol (phase2B tol n1 (phase2A tol n2 (phase1 tol
      (initState list1 list2)))) :=
    runPass_invOK _ _ tol (sel2B_sound tol _) _ hinv2
  have hst2A : Steps (phase1 tol (initState list1 list2))
      (phase2A tol n2 (phase1 tol (initState list1 list2))) :=
    runPass_steps _ _ tol (sel2A_sound tol _) _
  have hst2B : Steps (phase2A tol n2 (phase1 tol (initState list1 list2)))
      (phase2B tol n1 (phase2A tol n2 (phase1 tol (initState list1 list2)))) :=
    runPass_steps _ _ tol (sel2B_sound tol _) _
  have hst13 := hst2A.trans hst2B
  have hEx1 : ∀ (i1 : Nat) (x1 : Invoice),
      (phase2B tol n1 (phase2A tol n2 (phase1 tol
        (initState list1 list2)))).l1[i1]? = some x1 →
      x1.match_id = Option.none →
      ∀ (j1 : Nat) (y1 : Invoice),
        (phase2B tol n1 (phase2A tol n2 (phase1 tol
          (initState list1 list2)))).l2[j1]? = some y1 →
        y1.match_id = Option.none →
        ¬ (y1.gstin = x1.gstin ∧ y1.head = x1.head ∧
           |x1.amount - y1.amount| ≤ tol) := by
    intro i1 x1 hx1 hxu1 j1 y1 hy1 hyu1
    exact phase1_exhaust tol (initState list1 list2) i1 x1
      (hst13.back1 _ _ hx1 hxu1) hxu1 j1 y1 (hst13.back2 _ _ hy1 hyu1) hyu1
  have hEx2A : ∀ (i1 : Nat) (x1 : Invoice),
      (phase2B tol n1 (phase2A tol n2 (phase1 tol
        (initState list1 list2)))).l1[i1]? = some x1 →
      x1.match_id = Option.none → x1.gstin ≠ "" →
      ∀ (j1 : Nat) (y1 : Invoice),
        (phase2B tol n1 (phase2A tol n2 (phase1 tol
          (initState list1 list2)))).l2[j1]? = some y1 →
        y1.match_id = Option.none →
        ¬ (y1.gstin = "" ∧ y1.head = x1.head ∧
           |x1.amount - y1.amount| ≤ tol) := by
    intro i1 x1 hx1 hxu1 hg1 j1 y1 hy1 hyu1
    exact phase2A_exhaust tol n2 (phase1 tol (initState list1 list2)) i1 x1
      (hst2B.back1 _ _ hx1 hxu1) hxu1 hg1 j1 y1
      (hst2B.back2 _ _ hy1 hyu1) hyu1
  have hEx2B : ∀ (i1 : Nat) (x1 : Invoice),
      (phase2B tol n1 (phase2A tol n2 (phase1 tol
        (initState list1 list2)))).l1[i1]? = some x1 →
      x1.match_id = Option.none → x1.gstin = "" →
      ∀ (j1 : Nat) (y1 : Invoice),
        (phase2B tol n1 (phase2A tol n2 (phase1 tol
          (initState list1 list2)))).l2[j1]? = some y1 →
        y1.match_id = Option.none →
        ¬ (y1.gstin ≠ "" ∧ y1.head = x1.head ∧
           |x1.amount - y1.amount| ≤ tol) :=
    phase2B_exhaust tol n1 (phase2A tol n2 (phase1 tol (initState list1 list2)))
  have hnp := phase3_new_pairs tol (phase2B tol n1 (phase2A tol n2 (phase1 tol
      (initState list1 list2)))) hinv3 hEx1 hEx2A hEx2B
  have hres := hnp i j x y m hx hy hmx hmy hge
  exact ⟨hres.1, hres.2.2⟩

/-- List-1 record for the C10 witness. -/
def c10A : Invoice :=
  { row_idx := 2, gstin := "G1", igst := 100, cgst := 0, sgst := 0,
    party := "", head := "IGST", amount := 100, source := "S1",
    match_id := Option.none, match_type := Option.none,
    matched_with_row := Option.none }

/-- List-2 record for the C10 witness. -/
def c10B : Invoice :=
  { c10A with gstin := "G2", igst := 100.5, amount := 100.5, source := "S2" }

theorem c10_phase3_gstin_witness :
    GstOk (claimInv c10A 1 "Probable Match (GSTIN Mismatch)" 2)
      (claimInv c10B 1 "Probable Match (GSTIN Mismatch)" 2) ∧
    ((claimInv c10A 1 "Probable Match (GSTIN Mismatch)" 2).match_type =
        some "Match (No GSTINs)" →
      (claimInv c10A 1 "Probable Match (GSTIN Mismatch)" 2).gstin = "" ∧
      (claimInv c10B 1 "Probable Match (GSTIN Mismatch)" 2).gstin = "") :=
  c10_phase3_gstin [c10A] [c10B] 1 "S1" "S2" (by unfold Fresh; decide)
    (by unfold Fresh; decide) 0 0
    (claimInv c10A 1 "Probable Match (GSTIN Mismatch)" 2)
    (claimInv c10B 1 "Probable Match (GSTIN Mismatch)" 2) 1
    (by decide) (by decide) (by decide) (by decide) (by decide)
